import Mathlib

/-!
Verification of the IRT adaptive-testing core (`core/irt_engine.py`,
`core/schema.py`, `core/blueprint_policy.py`, `core/adaptive_selector.py`,
`sat_ai_core/irt_core.py`, `sat_ai_core/question_selector.py`).

Python floats are modelled as real numbers (`ℝ`), Python ints as `Int`/`Nat`,
Python dicts as functions into `Option` (for the parameter tables) or as
association lists with unique keys (for the blueprint trees, mirroring
insertion order).  `float("inf")` is modelled as `(⊤ : EReal)`.  Code that can
raise an exception is modelled with `Option`/`Except`.
-/

noncomputable section

open Classical Real

namespace IRTEngine

/-- Constant `D = 1.7` from `core/irt_engine.py`. -/
def D : ℝ := 1.7

/-- Constant `THETA_MIN = -4.0` from `core/irt_engine.py`. -/
def THETA_MIN : ℝ := -4

/-- Constant `THETA_MAX = 4.0` from `core/irt_engine.py`. -/
def THETA_MAX : ℝ := 4

/-- Constant `EPS = 1e-6` from `core/irt_engine.py`. -/
def EPS : ℝ := 1 / 1000000

/-- `sigmoid_stable` from `core/irt_engine.py`: branch on the sign of `x`,
always exponentiating a non-positive argument. -/
def sigmoid_stable (x : ℝ) : ℝ :=
  if 0 ≤ x then 1 / (1 + Real.exp (-x)) else Real.exp x / (1 + Real.exp x)

/-- `prob_correct` from `core/irt_engine.py`: 3PL probability of a correct
response. -/
def prob_correct (theta a b c : ℝ) : ℝ :=
  c + (1 - c) * sigmoid_stable (D * a * (theta - b))

/-- `dprob_dtheta` from `core/irt_engine.py`: derivative of `prob_correct`
with respect to `theta`. -/
def dprob_dtheta (theta a b c : ℝ) : ℝ :=
  (1 - c) * D * a * sigmoid_stable (D * a * (theta - b)) *
    (1 - sigmoid_stable (D * a * (theta - b)))

end IRTEngine

/-- `IRTParams` from `core/schema.py` (all six fields). -/
structure IRTParams where
  id : Nat
  a : ℝ
  b : ℝ
  c : ℝ
  exposure : ℝ
  drift_flag : Bool

namespace IRTEngine

/-- `fisher_info` from `core/irt_engine.py`: Fisher information of one item at
`theta`, with the degenerate-parameter and near-boundary-probability guards
returning `0.0`. -/
def fisher_info (theta : ℝ) (pars : IRTParams) : ℝ :=
  if pars.a ≤ 0 ∨ ¬(0 ≤ pars.c ∧ pars.c < 1) then 0
  else if prob_correct theta pars.a pars.b pars.c ≤ EPS ∨
      1 - EPS ≤ prob_correct theta pars.a pars.b pars.c then 0
  else
    dprob_dtheta theta pars.a pars.b pars.c * dprob_dtheta theta pars.a pars.b pars.c /
      (prob_correct theta pars.a pars.b pars.c * (1 - prob_correct theta pars.a pars.b pars.c))

/-- On the reals the two branches of `sigmoid_stable` coincide with the closed
form `1 / (1 + exp (-x))`. -/
theorem sigmoid_stable_eq (x : ℝ) : sigmoid_stable x = 1 / (1 + Real.exp (-x)) := by
  unfold sigmoid_stable
  split
  · rfl
  · have h1 : Real.exp (-x) = (Real.exp x)⁻¹ := Real.exp_neg x
    have h2 : Real.exp x ≠ 0 := (Real.exp_pos x).ne'
    have h3 : 1 + Real.exp x ≠ 0 := by positivity
    rw [h1]
    field_simp
    ring

theorem sigmoid_pos (x : ℝ) : 0 < sigmoid_stable x := by
  rw [sigmoid_stable_eq]
  positivity

theorem sigmoid_lt_one (x : ℝ) : sigmoid_stable x < 1 := by
  rw [sigmoid_stable_eq]
  have h : (0:ℝ) < 1 + Real.exp (-x) := by positivity
  rw [div_lt_one h]
  linarith [Real.exp_pos (-x)]

theorem sigmoid_strictMono : StrictMono sigmoid_stable := by
  intro x y hxy
  rw [sigmoid_stable_eq, sigmoid_stable_eq]
  have hx : (0:ℝ) < 1 + Real.exp (-x) := by positivity
  have hy : (0:ℝ) < 1 + Real.exp (-y) := by positivity
  rw [div_lt_div_iff₀ hx hy]
  have h : Real.exp (-y) < Real.exp (-x) := Real.exp_lt_exp.mpr (by linarith)
  linarith

/-- For `x < 0` the stable sigmoid is below `1/2` (used to bound 3PL
probabilities away from 1 at negative logits). -/
theorem sigmoid_lt_half {x : ℝ} (hx : x < 0) : sigmoid_stable x < 1 / 2 := by
  rw [sigmoid_stable_eq]
  have h1 : (1:ℝ) < Real.exp (-x) := by
    rw [show (1:ℝ) = Real.exp 0 by simp]
    exact Real.exp_lt_exp.mpr (by linarith)
  have h2 : (0:ℝ) < 1 + Real.exp (-x) := by positivity
  rw [div_lt_div_iff₀ h2 (by norm_num : (0:ℝ) < 2)]
  linarith

theorem sigmoid_zero : sigmoid_stable 0 = 1 / 2 := by
  rw [sigmoid_stable_eq]
  norm_num [Real.exp_zero]

theorem prob_correct_gt {theta a b c : ℝ} (hc : c < 1) :
    c < prob_correct theta a b c := by
  unfold prob_correct
  nlinarith [sigmoid_pos (D * a * (theta - b))]

theorem prob_correct_lt_one {theta a b c : ℝ} (hc : c < 1) :
    prob_correct theta a b c < 1 := by
  unfold prob_correct
  nlinarith [sigmoid_lt_one (D * a * (theta - b))]

theorem prob_correct_strictMono {a b c : ℝ} (ha : 0 < a) (hc : c < 1) :
    StrictMono (fun theta => prob_correct theta a b c) := by
  intro x y hxy
  dsimp only
  unfold prob_correct
  have hD : (0:ℝ) < D := by norm_num [D]
  have hz : D * a * (x - b) < D * a * (y - b) := by
    have := mul_pos hD ha
    nlinarith
  have hs := sigmoid_strictMono hz
  have hmul := mul_lt_mul_of_pos_left hs (by linarith : (0:ℝ) < 1 - c)
  linarith

/-- At `theta = b` the probability is exactly `(1 + c) / 2`. -/
theorem prob_correct_at_b (a b c : ℝ) : prob_correct b a b c = (1 + c) / 2 := by
  unfold prob_correct
  rw [show D * a * (b - b) = 0 by ring, sigmoid_zero]
  ring

theorem dprob_pos {theta a b c : ℝ} (ha : 0 < a) (hc : c < 1) :
    0 < dprob_dtheta theta a b c := by
  unfold dprob_dtheta
  have hD : (0:ℝ) < D := by norm_num [D]
  have h1 := sigmoid_pos (D * a * (theta - b))
  have h2 := sigmoid_lt_one (D * a * (theta - b))
  have hc' : (0:ℝ) < 1 - c := by linarith
  exact mul_pos (mul_pos (mul_pos (mul_pos hc' hD) ha) h1) (by linarith)

theorem fisher_info_nonneg (theta : ℝ) (pars : IRTParams) :
    0 ≤ fisher_info theta pars := by
  unfold fisher_info
  split
  · exact le_refl 0
  · next h =>
    push_neg at h
    split
    · exact le_refl 0
    · next h2 =>
      push_neg at h2
      have hp : EPS < prob_correct theta pars.a pars.b pars.c := h2.1
      have hq : prob_correct theta pars.a pars.b pars.c < 1 - EPS := h2.2
      have hEPS : (0:ℝ) < EPS := by norm_num [EPS]
      have h1 : (0:ℝ) < prob_correct theta pars.a pars.b pars.c := lt_trans hEPS hp
      have h2' : prob_correct theta pars.a pars.b pars.c < 1 := by
        have : (1:ℝ) - EPS < 1 := by norm_num [EPS]
        linarith
      have hden : (0:ℝ) < prob_correct theta pars.a pars.b pars.c *
          (1 - prob_correct theta pars.a pars.b pars.c) := by nlinarith
      have hnum : (0:ℝ) ≤ dprob_dtheta theta pars.a pars.b pars.c *
          dprob_dtheta theta pars.a pars.b pars.c := mul_self_nonneg _
      exact div_nonneg hnum hden.le

/-- At `theta = b`, `fisher_info` is strictly positive for `a > 0`,
`0 ≤ c < 1 - 2·EPS` (the probability `(1+c)/2` then lies strictly inside
`(EPS, 1-EPS)`). -/
theorem fisher_info_at_b_pos (pars : IRTParams) (ha : 0 < pars.a)
    (hc0 : 0 ≤ pars.c) (hc1 : pars.c < 1 - 2 * EPS) :
    0 < fisher_info pars.b pars := by
  have hc1' : pars.c < 1 := by norm_num [EPS] at hc1 ⊢; linarith
  have hp := prob_correct_at_b pars.a pars.b pars.c
  unfold fisher_info
  rw [if_neg (by push_neg; exact ⟨ha, hc0, hc1'⟩)]
  rw [if_neg (by
    rw [hp]
    push_neg
    norm_num [EPS] at hc1 ⊢
    exact ⟨by linarith, by linarith⟩)]
  have hdp := @dprob_pos pars.b pars.a pars.b pars.c ha hc1'
  have hpp : 0 < prob_correct pars.b pars.a pars.b pars.c *
      (1 - prob_correct pars.b pars.a pars.b pars.c) := by
    rw [hp]; nlinarith
  exact div_pos (mul_pos hdp hdp) hpp

/-- The score contribution `(resp - p)·dp/(p·(1-p))` accumulated into `U` by
the MAP update loops. -/
def scoreTerm (theta a b c : ℝ) (resp : Int) : ℝ :=
  ((resp : ℝ) - prob_correct theta a b c) * dprob_dtheta theta a b c /
    (prob_correct theta a b c * (1 - prob_correct theta a b c))

/-- The information contribution `dp²/(p·(1-p))` accumulated into `I` by the
MAP update loops. -/
def infoTerm (theta a b c : ℝ) : ℝ :=
  dprob_dtheta theta a b c * dprob_dtheta theta a b c /
    (prob_correct theta a b c * (1 - prob_correct theta a b c))

/-- Body of the accumulation loop of `update_theta_map_once`
(`core/irt_engine.py`, lines 68-79): skip pairs whose item id is missing from
the table or whose probability is outside `(EPS, 1-EPS)`; otherwise add the
score and information contributions. -/
def mapStep (theta : ℝ) (irt_params : Nat → Option IRTParams) (acc : ℝ × ℝ)
    (pair : Nat × Int) : ℝ × ℝ :=
  match irt_params pair.1 with
  | none => acc
  | some pars =>
    if EPS < prob_correct theta pars.a pars.b pars.c ∧
        prob_correct theta pars.a pars.b pars.c < 1 - EPS then
      (acc.1 + scoreTerm theta pars.a pars.b pars.c pair.2,
       acc.2 + infoTerm theta pars.a pars.b pars.c)
    else acc

/-- `update_theta_map_once` from `core/irt_engine.py`: one MAP Fisher-scoring
step.  Returns `(theta_new, SE)`; `float("inf")` is modelled as `⊤ : EReal`. -/
def update_theta_map_once (theta : ℝ) (answered_pairs : List (Nat × Int))
    (irt_params : Nat → Option IRTParams) (prior_mean prior_var : ℝ) :
    ℝ × EReal :=
  let UI := answered_pairs.foldl (mapStep theta irt_params) (0, 0)
  let den := UI.2 + 1 / prior_var
  if den ≤ 0 then (theta, (⊤ : EReal))
  else
    (min (max (theta + (UI.1 - (theta - prior_mean) * (1 / prior_var)) / den)
        THETA_MIN) THETA_MAX,
     ((1 / Real.sqrt den : ℝ) : EReal))

end IRTEngine

namespace IRTCore

/-- `sigmoid_stable` from `sat_ai_core/irt_core.py` — textually identical to
the `core/irt_engine.py` version, so it is reused. -/
def sigmoid_stable : ℝ → ℝ := IRTEngine.sigmoid_stable

/-- `prob_correct` from `sat_ai_core/irt_core.py` — textually identical to the
`core/irt_engine.py` version (same `D = 1.7`), so it is reused. -/
def prob_correct : ℝ → ℝ → ℝ → ℝ → ℝ := IRTEngine.prob_correct

/-- `dprob_dtheta` from `sat_ai_core/irt_core.py` — textually identical to the
`core/irt_engine.py` version, so it is reused. -/
def dprob_dtheta : ℝ → ℝ → ℝ → ℝ → ℝ := IRTEngine.dprob_dtheta

/-- `fisher_info` from `sat_ai_core/irt_core.py` (the variant taking the bare
`a b c` triple).  The Python guard also checks `math.isfinite(b)`, which is
vacuously true in the real-number model. -/
def fisher_info (theta a b c : ℝ) : ℝ :=
  if a ≤ 0 ∨ ¬(0 ≤ c ∧ c < 1) then 0
  else if ¬(1 / 1000000 < prob_correct theta a b c ∧
      prob_correct theta a b c < 1 - 1 / 1000000) then 0
  else
    dprob_dtheta theta a b c * dprob_dtheta theta a b c /
      (prob_correct theta a b c * (1 - prob_correct theta a b c))

/-- An entry `{'a':…, 'b':…, 'c':…}` of the public parameter table of
`sat_ai_core/irt_core.py`.  The Python code reads the fields with
`pars.get("a", 1.0)` etc.; entries are modelled as complete records, so the
defaults (which only fire for malformed entries) are not modelled. -/
structure PubIRT where
  a : ℝ
  b : ℝ
  c : ℝ

/-- Body of the accumulation loop of `update_theta_map`
(`sat_ai_core/irt_core.py`, lines 83-101): skip pairs with a response outside
`{0,1}`, a missing item, degenerate `a, c`, or a probability outside
`(1e-6, 1-1e-6)`; otherwise add the score and information contributions. -/
def coreStep (theta : ℝ) (irt_params : String → Option PubIRT) (acc : ℝ × ℝ)
    (pair : String × Int) : ℝ × ℝ :=
  if ¬(pair.2 = 0 ∨ pair.2 = 1) then acc
  else
    match irt_params pair.1 with
    | none => acc
    | some pars =>
      if pars.a ≤ 0 ∨ ¬(0 ≤ pars.c ∧ pars.c < 1) then acc
      else if ¬(1 / 1000000 < prob_correct theta pars.a pars.b pars.c ∧
          prob_correct theta pars.a pars.b pars.c < 1 - 1 / 1000000) then acc
      else
        (acc.1 + IRTEngine.scoreTerm theta pars.a pars.b pars.c pair.2,
         acc.2 + IRTEngine.infoTerm theta pars.a pars.b pars.c)

/-- `THETA_BOUNDS = (-4.0, 4.0)` from `sat_ai_core/irt_core.py`. -/
def THETA_BOUNDS : ℝ × ℝ := (-4, 4)

/-- `update_theta_map` from `sat_ai_core/irt_core.py`: one MAP step with prior
`N(prior_mean, prior_var)` and learning rate `step_size`.  `float("inf")` is
modelled as `⊤ : EReal`; the branch `den < 0`, on which Python's
`math.sqrt(den)` raises `ValueError`, is modelled as `.error ()`. -/
def update_theta_map (theta : ℝ) (answered_items : List (String × Int))
    (irt_params : String → Option PubIRT) (prior_mean prior_var step_size : ℝ) :
    Except Unit (ℝ × EReal) :=
  let UI := answered_items.foldl (coreStep theta irt_params) (0, 0)
  let den := UI.2 + 1 / prior_var
  if den = 0 then .ok (theta, (⊤ : EReal))
  else if den < 0 then .error ()
  else
    .ok (max (min (theta + step_size *
          ((UI.1 - (1 / prior_var) * (theta - prior_mean)) / den))
          THETA_BOUNDS.2) THETA_BOUNDS.1,
         ((1 / Real.sqrt den : ℝ) : EReal))

end IRTCore

/-- C2: for every `theta` and every parameter triple with `a > 0` and
`0 ≤ c < 1`, `prob_correct theta a b c` lies strictly between `c` and `1`,
and for fixed such parameters it is strictly increasing in `theta`
(`core/irt_engine.py`, `prob_correct` / `sigmoid_stable`). -/
theorem C2_prob_correct_bounds_and_mono (a b c : ℝ) (ha : 0 < a) (_hc0 : 0 ≤ c)
    (hc1 : c < 1) :
    (∀ theta : ℝ, c < IRTEngine.prob_correct theta a b c ∧
      IRTEngine.prob_correct theta a b c < 1) ∧
    StrictMono (fun theta => IRTEngine.prob_correct theta a b c) :=
  ⟨fun _theta => ⟨IRTEngine.prob_correct_gt hc1, IRTEngine.prob_correct_lt_one hc1⟩,
    IRTEngine.prob_correct_strictMono ha hc1⟩

/-- Witness for C2 at the concrete parameters `a = 1, b = 0, c = 1/5` and the
concrete abilities `0 < 1`. -/
theorem C2_prob_correct_bounds_and_mono_witness :
    ((1:ℝ)/5 < IRTEngine.prob_correct 0 1 0 (1/5) ∧
      IRTEngine.prob_correct 0 1 0 (1/5) < 1) ∧
    IRTEngine.prob_correct 0 1 0 (1/5) < IRTEngine.prob_correct 1 1 0 (1/5) := by
  have h := C2_prob_correct_bounds_and_mono 1 0 (1/5) (by norm_num) (by norm_num)
    (by norm_num)
  exact ⟨h.1 0, h.2 (by norm_num : (0:ℝ) < 1)⟩

/-- C3: `fisher_info` (`core/irt_engine.py`) returns exactly `0` for every
`theta` when `a ≤ 0` or `c ∉ [0,1)`, and also whenever `prob_correct` is
within `EPS = 1e-6` of `0` or `1`; otherwise it equals `(dp/dθ)²/(p·(1-p))`,
which is nonnegative; and at `theta = b` it is strictly positive for valid
parameters (any `a > 0`, with `c` below `1 - 2·EPS` so that the probability
`(1+c)/2` stays inside the stable band). -/
theorem C3_fisher_info_policy (theta : ℝ) (pars : IRTParams) :
    (pars.a ≤ 0 ∨ ¬(0 ≤ pars.c ∧ pars.c < 1) →
      IRTEngine.fisher_info theta pars = 0) ∧
    (IRTEngine.prob_correct theta pars.a pars.b pars.c ≤ IRTEngine.EPS ∨
      1 - IRTEngine.EPS ≤ IRTEngine.prob_correct theta pars.a pars.b pars.c →
      IRTEngine.fisher_info theta pars = 0) ∧
    (0 < pars.a → 0 ≤ pars.c → pars.c < 1 →
      IRTEngine.EPS < IRTEngine.prob_correct theta pars.a pars.b pars.c →
      IRTEngine.prob_correct theta pars.a pars.b pars.c < 1 - IRTEngine.EPS →
      IRTEngine.fisher_info theta pars =
        IRTEngine.dprob_dtheta theta pars.a pars.b pars.c *
          IRTEngine.dprob_dtheta theta pars.a pars.b pars.c /
          (IRTEngine.prob_correct theta pars.a pars.b pars.c *
            (1 - IRTEngine.prob_correct theta pars.a pars.b pars.c)) ∧
        0 ≤ IRTEngine.fisher_info theta pars) ∧
    (0 < pars.a → 0 ≤ pars.c → pars.c < 1 - 2 * IRTEngine.EPS →
      0 < IRTEngine.fisher_info pars.b pars) := by
  refine ⟨fun h => ?_, fun h => ?_, fun ha hc0 hc1 hp1 hp2 => ⟨?_, ?_⟩,
    fun ha hc0 hc1 => IRTEngine.fisher_info_at_b_pos pars ha hc0 hc1⟩
  · unfold IRTEngine.fisher_info
    rw [if_pos h]
  · unfold IRTEngine.fisher_info
    by_cases hd : pars.a ≤ 0 ∨ ¬(0 ≤ pars.c ∧ pars.c < 1)
    · rw [if_pos hd]
    · rw [if_neg hd, if_pos h]
  · unfold IRTEngine.fisher_info
    rw [if_neg (by push_neg; exact ⟨ha, hc0, hc1⟩), if_neg (by push_neg; exact ⟨hp1, hp2⟩)]
  · exact IRTEngine.fisher_info_nonneg theta pars

/-- Witness for C3: the degenerate discrimination `a = -1` yields zero
information, and at `theta = b = 0` a valid item `a = 1, c = 1/5` carries
strictly positive information. -/
theorem C3_fisher_info_policy_witness :
    IRTEngine.fisher_info 0 ⟨1, -1, 0, 1/5, 0, false⟩ = 0 ∧
    0 < IRTEngine.fisher_info 0 ⟨1, 1, 0, 1/5, 0, false⟩ := by
  constructor
  · exact (C3_fisher_info_policy 0 ⟨1, -1, 0, 1/5, 0, false⟩).1
      (Or.inl (by norm_num))
  · exact (C3_fisher_info_policy 0 ⟨1, 1, 0, 1/5, 0, false⟩).2.2.2
      (by norm_num) (by norm_num) (by norm_num [IRTEngine.EPS])

/-- The single-item parameter table `{1: IRTParams(a=1.2, b=0, c=0.2)}` used
in the C1 scenario (`core/irt_engine.py` typing). -/
def c1ParamsEngine : Nat → Option IRTParams :=
  fun j => if j = 1 then some ⟨1, 6/5, 0, 1/5, 0, false⟩ else none

/-- The single-item parameter table `{"1": {'a':1.2, 'b':0, 'c':0.2}}` used in
the C1 scenario (`sat_ai_core/irt_core.py` typing). -/
def c1ParamsCore : String → Option IRTCore.PubIRT :=
  fun s => if s = "1" then some ⟨6/5, 0, 1/5⟩ else none

theorem c1_p_eq : IRTEngine.prob_correct 0 (6/5) 0 (1/5) = 3/5 := by
  rw [IRTEngine.prob_correct_at_b (6/5) 0 (1/5)]
  norm_num

theorem c1_dp_pos : 0 < IRTEngine.dprob_dtheta 0 (6/5) 0 (1/5) :=
  IRTEngine.dprob_pos (by norm_num) (by norm_num)

theorem c1_info_pos : 0 < IRTEngine.infoTerm 0 (6/5) 0 (1/5) := by
  unfold IRTEngine.infoTerm
  rw [c1_p_eq]
  exact div_pos (mul_pos c1_dp_pos c1_dp_pos) (by norm_num)

theorem c1_score_one_pos : 0 < IRTEngine.scoreTerm 0 (6/5) 0 (1/5) 1 := by
  unfold IRTEngine.scoreTerm
  rw [c1_p_eq]
  apply div_pos (mul_pos (by norm_num) c1_dp_pos) (by norm_num)

theorem c1_score_zero_neg : IRTEngine.scoreTerm 0 (6/5) 0 (1/5) 0 < 0 := by
  unfold IRTEngine.scoreTerm
  rw [c1_p_eq]
  apply div_neg_of_neg_of_pos (mul_neg_of_neg_of_pos (by norm_num) c1_dp_pos)
    (by norm_num)

theorem c1_fold_engine (resp : Int) :
    List.foldl (IRTEngine.mapStep 0 c1ParamsEngine) (0, 0) [(1, resp)] =
      (IRTEngine.scoreTerm 0 (6/5) 0 (1/5) resp,
       IRTEngine.infoTerm 0 (6/5) 0 (1/5)) := by
  simp only [List.foldl, IRTEngine.mapStep, c1ParamsEngine]
  norm_num [c1_p_eq, IRTEngine.EPS]

theorem c1_fold_core (resp : Int) (hresp : resp = 0 ∨ resp = 1) :
    List.foldl (IRTCore.coreStep 0 c1ParamsCore) (0, 0) [("1", resp)] =
      (IRTEngine.scoreTerm 0 (6/5) 0 (1/5) resp,
       IRTEngine.infoTerm 0 (6/5) 0 (1/5)) := by
  have hpc : IRTCore.prob_correct 0 (6/5) 0 (1/5) = 3/5 := c1_p_eq
  simp only [List.foldl, IRTCore.coreStep, c1ParamsCore]
  norm_num [hpc, hresp]

/-- C1: the MAP ability update applied to the single-item history with
`a = 1.2, b = 0, c = 0.2`, `theta = 0`, `prior_mean = 0`, `prior_var = 1`
moves the ability strictly up on a correct response and strictly down on an
incorrect one — for both `update_theta_map_once` (`core/irt_engine.py`) and
`update_theta_map` (`sat_ai_core/irt_core.py`, with `step_size = 1`). -/
theorem C1_map_single_item_direction :
    0 < (IRTEngine.update_theta_map_once 0 [(1, 1)] c1ParamsEngine 0 1).1 ∧
    (IRTEngine.update_theta_map_once 0 [(1, 0)] c1ParamsEngine 0 1).1 < 0 ∧
    (∃ t se, IRTCore.update_theta_map 0 [("1", 1)] c1ParamsCore 0 1 1 =
      .ok (t, se) ∧ 0 < t) ∧
    (∃ t se, IRTCore.update_theta_map 0 [("1", 0)] c1ParamsCore 0 1 1 =
      .ok (t, se) ∧ t < 0) := by
  have hI := c1_info_pos
  have hU1 := c1_score_one_pos
  have hU0 := c1_score_zero_neg
  have hden : ¬(IRTEngine.infoTerm 0 (6/5) 0 (1/5) + 1 / (1:ℝ) ≤ 0) := by
    push_neg; norm_num; linarith
  refine ⟨?_, ?_, ?_, ?_⟩
  · simp only [IRTEngine.update_theta_map_once, c1_fold_engine]
    rw [if_neg hden]
    have hx : 0 < 0 + (IRTEngine.scoreTerm 0 (6/5) 0 (1/5) 1 - (0 - 0) * (1 / 1)) /
        (IRTEngine.infoTerm 0 (6/5) 0 (1/5) + 1 / (1:ℝ)) := by
      have : (IRTEngine.scoreTerm 0 (6/5) 0 (1/5) 1 - (0 - 0) * (1 / 1)) =
          IRTEngine.scoreTerm 0 (6/5) 0 (1/5) 1 := by ring
      rw [this, zero_add]
      exact div_pos hU1 (by linarith)
    simp only [IRTEngine.THETA_MIN, IRTEngine.THETA_MAX]
    exact lt_min (lt_max_of_lt_left hx) (by norm_num)
  · simp only [IRTEngine.update_theta_map_once, c1_fold_engine]
    rw [if_neg hden]
    have hx : 0 + (IRTEngine.scoreTerm 0 (6/5) 0 (1/5) 0 - (0 - 0) * (1 / 1)) /
        (IRTEngine.infoTerm 0 (6/5) 0 (1/5) + 1 / (1:ℝ)) < 0 := by
      have : (IRTEngine.scoreTerm 0 (6/5) 0 (1/5) 0 - (0 - 0) * (1 / 1)) =
          IRTEngine.scoreTerm 0 (6/5) 0 (1/5) 0 := by ring
      rw [this, zero_add]
      exact div_neg_of_neg_of_pos hU0 (by linarith)
    simp only [IRTEngine.THETA_MIN, IRTEngine.THETA_MAX]
    exact lt_of_le_of_lt (min_le_left _ _) (max_lt hx (by norm_num))
  · have heval : IRTCore.update_theta_map 0 [("1", 1)] c1ParamsCore 0 1 1 =
        .ok (max (min (0 + 1 * ((IRTEngine.scoreTerm 0 (6/5) 0 (1/5) 1 -
            1 / 1 * ((0:ℝ) - 0)) / (IRTEngine.infoTerm 0 (6/5) 0 (1/5) + 1 / 1)))
            IRTCore.THETA_BOUNDS.2) IRTCore.THETA_BOUNDS.1,
          ((1 / Real.sqrt (IRTEngine.infoTerm 0 (6/5) 0 (1/5) + 1 / 1) : ℝ) : EReal)) := by
      simp only [IRTCore.update_theta_map, c1_fold_core 1 (Or.inr rfl)]
      rw [if_neg (by norm_num; linarith), if_neg (by push_neg; norm_num; linarith)]
    refine ⟨_, _, heval, ?_⟩
    have hx : 0 < 0 + 1 * ((IRTEngine.scoreTerm 0 (6/5) 0 (1/5) 1 -
        1 / 1 * ((0:ℝ) - 0)) / (IRTEngine.infoTerm 0 (6/5) 0 (1/5) + 1 / 1)) := by
      have h9 : (IRTEngine.scoreTerm 0 (6/5) 0 (1/5) 1 - 1 / 1 * ((0:ℝ) - 0)) =
          IRTEngine.scoreTerm 0 (6/5) 0 (1/5) 1 := by ring
      rw [h9, zero_add, one_mul]
      exact div_pos hU1 (by linarith)
    simp only [IRTCore.THETA_BOUNDS]
    exact lt_max_of_lt_left (lt_min hx (by norm_num))
  · have heval : IRTCore.update_theta_map 0 [("1", 0)] c1ParamsCore 0 1 1 =
        .ok (max (min (0 + 1 * ((IRTEngine.scoreTerm 0 (6/5) 0 (1/5) 0 -
            1 / 1 * ((0:ℝ) - 0)) / (IRTEngine.infoTerm 0 (6/5) 0 (1/5) + 1 / 1)))
            IRTCore.THETA_BOUNDS.2) IRTCore.THETA_BOUNDS.1,
          ((1 / Real.sqrt (IRTEngine.infoTerm 0 (6/5) 0 (1/5) + 1 / 1) : ℝ) : EReal)) := by
      simp only [IRTCore.update_theta_map, c1_fold_core 0 (Or.inl rfl)]
      rw [if_neg (by norm_num; linarith), if_neg (by push_neg; norm_num; linarith)]
    refine ⟨_, _, heval, ?_⟩
    have hx : 0 + 1 * ((IRTEngine.scoreTerm 0 (6/5) 0 (1/5) 0 -
        1 / 1 * ((0:ℝ) - 0)) / (IRTEngine.infoTerm 0 (6/5) 0 (1/5) + 1 / 1)) < 0 := by
      have h9 : (IRTEngine.scoreTerm 0 (6/5) 0 (1/5) 0 - 1 / 1 * ((0:ℝ) - 0)) =
          IRTEngine.scoreTerm 0 (6/5) 0 (1/5) 0 := by ring
      rw [h9, zero_add, one_mul]
      exact div_neg_of_neg_of_pos hU0 (by linarith)
    simp only [IRTCore.THETA_BOUNDS]
    exact max_lt (lt_of_le_of_lt (min_le_left _ _) hx) (by norm_num)

namespace IRTEngine

/-- A pair the accumulation loop of `update_theta_map_once` does NOT skip:
its item id is present in the table and its probability lies inside
`(EPS, 1-EPS)`.  (This loop has no degenerate-parameter guard.) -/
def onceKept (theta : ℝ) (irt_params : Nat → Option IRTParams)
    (pair : Nat × Int) : Prop :=
  match irt_params pair.1 with
  | none => False
  | some pars =>
    EPS < prob_correct theta pars.a pars.b pars.c ∧
      prob_correct theta pars.a pars.b pars.c < 1 - EPS

/-- Boolean form of `onceKept` (classically decided). -/
def onceKeptB (theta : ℝ) (irt_params : Nat → Option IRTParams)
    (pair : Nat × Int) : Bool :=
  decide (onceKept theta irt_params pair)

theorem mapStep_skip {theta : ℝ} {irt_params : Nat → Option IRTParams}
    {pair : Nat × Int} (h : ¬ onceKept theta irt_params pair) (acc : ℝ × ℝ) :
    mapStep theta irt_params acc pair = acc := by
  unfold onceKept at h
  unfold mapStep
  cases hq : irt_params pair.1 with
  | none => rfl
  | some pars =>
    rw [hq] at h
    dsimp only at h ⊢
    rw [if_neg h]

theorem foldl_mapStep_filter (theta : ℝ) (irt_params : Nat → Option IRTParams)
    (l : List (Nat × Int)) (acc : ℝ × ℝ) :
    List.foldl (mapStep theta irt_params) acc
        (l.filter (onceKeptB theta irt_params)) =
      List.foldl (mapStep theta irt_params) acc l := by
  induction l generalizing acc with
  | nil => rfl
  | cons x xs ih =>
    by_cases h : onceKept theta irt_params x
    · rw [List.filter_cons_of_pos (by simp [onceKeptB, h])]
      simp only [List.foldl]
      exact ih _
    · rw [List.filter_cons_of_neg (by simp [onceKeptB, h])]
      simp only [List.foldl]
      rw [mapStep_skip h]
      exact ih _

end IRTEngine

namespace IRTCore

/-- A pair NOT in the C5 removal set for `update_theta_map`: its item id is
present, its parameters are non-degenerate and its probability lies inside
`(1e-6, 1-1e-6)`.  (Pairs with a response outside `{0,1}` are skipped by the
code but are not part of the claim's removal set.) -/
def coreClaimKept (theta : ℝ) (irt_params : String → Option PubIRT)
    (pair : String × Int) : Prop :=
  match irt_params pair.1 with
  | none => False
  | some pars =>
    ¬(pars.a ≤ 0 ∨ ¬(0 ≤ pars.c ∧ pars.c < 1)) ∧
      (1 / 1000000 < prob_correct theta pars.a pars.b pars.c ∧
        prob_correct theta pars.a pars.b pars.c < 1 - 1 / 1000000)

/-- Boolean form of `coreClaimKept` (classically decided). -/
def coreClaimKeptB (theta : ℝ) (irt_params : String → Option PubIRT)
    (pair : String × Int) : Bool :=
  decide (coreClaimKept theta irt_params pair)

theorem coreStep_skip {theta : ℝ} {irt_params : String → Option PubIRT}
    {pair : String × Int} (h : ¬ coreClaimKept theta irt_params pair)
    (acc : ℝ × ℝ) : coreStep theta irt_params acc pair = acc := by
  unfold coreClaimKept at h
  unfold coreStep
  by_cases hr : ¬(pair.2 = 0 ∨ pair.2 = 1)
  · rw [if_pos hr]
  · rw [if_neg hr]
    cases hq : irt_params pair.1 with
    | none => rfl
    | some pars =>
      rw [hq] at h
      dsimp only at h ⊢
      by_cases hdeg : pars.a ≤ 0 ∨ ¬(0 ≤ pars.c ∧ pars.c < 1)
      · rw [if_pos hdeg]
      · rw [if_neg hdeg]
        have hrange : ¬(1 / 1000000 < prob_correct theta pars.a pars.b pars.c ∧
            prob_correct theta pars.a pars.b pars.c < 1 - 1 / 1000000) :=
          fun hrg => h ⟨hdeg, hrg⟩
        rw [if_pos hrange]

theorem foldl_coreStep_filter (theta : ℝ) (irt_params : String → Option PubIRT)
    (l : List (String × Int)) (acc : ℝ × ℝ) :
    List.foldl (coreStep theta irt_params) acc
        (l.filter (coreClaimKeptB theta irt_params)) =
      List.foldl (coreStep theta irt_params) acc l := by
  induction l generalizing acc with
  | nil => rfl
  | cons x xs ih =>
    by_cases h : coreClaimKept theta irt_params x
    · rw [List.filter_cons_of_pos (by simp [coreClaimKeptB, h])]
      simp only [List.foldl]
      exact ih _
    · rw [List.filter_cons_of_neg (by simp [coreClaimKeptB, h])]
      simp only [List.foldl]
      rw [coreStep_skip h]
      exact ih _

end IRTCore

/-- The parameter table `{1: IRTParams(a=-1, b=0, c=0.2)}` with a degenerate
discrimination, used to refute C5 for `update_theta_map_once`. -/
def c5Params : Nat → Option IRTParams :=
  fun j => if j = 1 then some ⟨1, -1, 0, 1/5, 0, false⟩ else none

/-- The pair `(1, 1)` is in the C5 removal set (`a = -1 ≤ 0` is degenerate)
when looked up in `c5Params`. -/
def c5PairBad : Prop :=
  match c5Params 1 with
  | none => True
  | some pars =>
    (pars.a ≤ 0 ∨ ¬(0 ≤ pars.c ∧ pars.c < 1)) ∨
      ¬(IRTEngine.EPS < IRTEngine.prob_correct 1 pars.a pars.b pars.c ∧
        IRTEngine.prob_correct 1 pars.a pars.b pars.c < 1 - IRTEngine.EPS)

theorem c5_p_lower : 1/5 < IRTEngine.prob_correct 1 (-1) 0 (1/5) := by
  unfold IRTEngine.prob_correct
  have hs := IRTEngine.sigmoid_pos (IRTEngine.D * (-1) * ((1:ℝ) - 0))
  set s := IRTEngine.sigmoid_stable (IRTEngine.D * (-1) * ((1:ℝ) - 0)) with hdef
  linarith

theorem c5_p_upper : IRTEngine.prob_correct 1 (-1) 0 (1/5) < 3/5 := by
  unfold IRTEngine.prob_correct
  have h := IRTEngine.sigmoid_lt_half
    (show IRTEngine.D * (-1) * ((1:ℝ) - 0) < 0 by norm_num [IRTEngine.D])
  set s := IRTEngine.sigmoid_stable (IRTEngine.D * (-1) * ((1:ℝ) - 0)) with hdef
  linarith

theorem c5_dp_neg : IRTEngine.dprob_dtheta 1 (-1) 0 (1/5) < 0 := by
  unfold IRTEngine.dprob_dtheta
  have h1 := IRTEngine.sigmoid_pos (IRTEngine.D * (-1) * ((1:ℝ) - 0))
  have h2 := IRTEngine.sigmoid_lt_one (IRTEngine.D * (-1) * ((1:ℝ) - 0))
  have hD : (0:ℝ) < IRTEngine.D := by norm_num [IRTEngine.D]
  set s := IRTEngine.sigmoid_stable (IRTEngine.D * (-1) * ((1:ℝ) - 0)) with hdef
  nlinarith [mul_pos (mul_pos hD h1) (sub_pos.mpr h2)]

theorem c5_info_pos : 0 < IRTEngine.infoTerm 1 (-1) 0 (1/5) := by
  unfold IRTEngine.infoTerm
  have hdp := c5_dp_neg
  have h1 := c5_p_lower
  have h2 := c5_p_upper
  apply div_pos (mul_pos_of_neg_of_neg hdp hdp)
  nlinarith

theorem c5_fold :
    List.foldl (IRTEngine.mapStep 1 c5Params) (0, 0) [(1, 1)] =
      (IRTEngine.scoreTerm 1 (-1) 0 (1/5) 1, IRTEngine.infoTerm 1 (-1) 0 (1/5)) := by
  have hcond : IRTEngine.EPS < IRTEngine.prob_correct 1 (-1) 0 (1/5) ∧
      IRTEngine.prob_correct 1 (-1) 0 (1/5) < 1 - IRTEngine.EPS :=
    ⟨by have := c5_p_lower; norm_num [IRTEngine.EPS]; linarith,
     by have := c5_p_upper; norm_num [IRTEngine.EPS]; linarith⟩
  have hl : c5Params 1 = some ⟨1, -1, 0, 1/5, 0, false⟩ := rfl
  simp only [List.foldl, IRTEngine.mapStep]
  rw [hl]
  dsimp only
  rw [if_pos hcond]
  norm_num

/-- C5 counterexample: in `update_theta_map_once` (`core/irt_engine.py`) a
pair with degenerate parameters (`a = -1 ≤ 0`) but in-range probability is
NOT skipped: with history `[(1, 1)]`, table `{1: (a=-1, b=0, c=0.2)}`,
`theta = 1`, `prior_mean = 0`, `prior_var = 1`, removing the (degenerate,
hence claim-removable) single pair — leaving the empty history — changes the
returned standard error.  The claim's removal-invariance is therefore false
as stated for this function. -/
theorem C5_counterexample :
    c5PairBad ∧
    (IRTEngine.update_theta_map_once 1 [(1, 1)] c5Params 0 1).2 ≠
      (IRTEngine.update_theta_map_once 1 [] c5Params 0 1).2 := by
  constructor
  · unfold c5PairBad c5Params
    norm_num
  · have hI := c5_info_pos
    have hfull : (IRTEngine.update_theta_map_once 1 [(1, 1)] c5Params 0 1).2 =
        ((1 / Real.sqrt (IRTEngine.infoTerm 1 (-1) 0 (1/5) + 1 / 1) : ℝ) : EReal) := by
      simp only [IRTEngine.update_theta_map_once, c5_fold]
      rw [if_neg (by push_neg; norm_num; linarith)]
    have hempty : (IRTEngine.update_theta_map_once 1 [] c5Params 0 1).2 =
        ((1 / Real.sqrt ((0:ℝ) + 1 / 1) : ℝ) : EReal) := by
      simp only [IRTEngine.update_theta_map_once, List.foldl]
      rw [if_neg (by norm_num)]
    rw [hfull, hempty]
    have hs1 : Real.sqrt ((0:ℝ) + 1 / 1) = 1 := by
      norm_num [Real.sqrt_one]
    have hs2 : (1:ℝ) < Real.sqrt (IRTEngine.infoTerm 1 (-1) 0 (1/5) + 1 / 1) := by
      have h := Real.sqrt_lt_sqrt (by norm_num : (0:ℝ) ≤ 1)
        (by linarith : (1:ℝ) < IRTEngine.infoTerm 1 (-1) 0 (1/5) + 1 / 1)
      rwa [Real.sqrt_one] at h
    have hR : (1 / Real.sqrt ((0:ℝ) + 1 / 1) : ℝ) = 1 := by
      rw [hs1]; norm_num
    have hL : (1 / Real.sqrt (IRTEngine.infoTerm 1 (-1) 0 (1/5) + 1 / 1) : ℝ) < 1 := by
      rw [div_lt_one (by linarith)]
      exact hs2
    intro hcontra
    rw [EReal.coe_eq_coe_iff] at hcontra
    rw [hcontra, hR] at hL
    exact lt_irrefl _ hL

/-- C5 amended: in `update_theta_map` (`sat_ai_core/irt_core.py`) removing
every pair whose item is missing, whose parameters are degenerate, or whose
probability is outside `(1e-6, 1-1e-6)` leaves the result unchanged, exactly
as the claim states; in `update_theta_map_once` (`core/irt_engine.py`) the
same holds only for the removal set consisting of missing-item and
out-of-range-probability pairs — that loop has no degenerate-parameter
filter, and `C5_counterexample` shows degenerate pairs can change the
result. -/
theorem C5_amended_filter_invariance :
    (∀ (theta : ℝ) (l : List (String × Int)) (params : String → Option IRTCore.PubIRT)
      (pm pv ss : ℝ),
      IRTCore.update_theta_map theta (l.filter (IRTCore.coreClaimKeptB theta params))
          params pm pv ss =
        IRTCore.update_theta_map theta l params pm pv ss) ∧
    (∀ (theta : ℝ) (l : List (Nat × Int)) (params : Nat → Option IRTParams)
      (pm pv : ℝ),
      IRTEngine.update_theta_map_once theta (l.filter (IRTEngine.onceKeptB theta params))
          params pm pv =
        IRTEngine.update_theta_map_once theta l params pm pv) := by
  constructor
  · intro theta l params pm pv ss
    unfold IRTCore.update_theta_map
    rw [IRTCore.foldl_coreStep_filter]
  · intro theta l params pm pv
    unfold IRTEngine.update_theta_map_once
    rw [IRTEngine.foldl_mapStep_filter]

namespace BlueprintPolicy

/-- `DifficultyMix` from `core/blueprint_policy.py`. -/
structure DifficultyMix where
  easy : ℝ
  medium : ℝ
  hard : ℝ

/-- `SkillSpec` from `core/blueprint_policy.py`. -/
structure SkillSpec where
  weight : ℝ
  difficulty : DifficultyMix

/-- `DomainSpec` from `core/blueprint_policy.py`.  The Python `Mapping` is
modelled as an association list in insertion order with unique keys. -/
structure DomainSpec where
  weight : ℝ
  skills : List (String × SkillSpec)

/-- `BlueprintSpec` from `core/blueprint_policy.py`: a plain frozen dataclass
whose constructor stores its two fields and performs no validation. -/
structure BlueprintSpec where
  domains : List (String × DomainSpec)
  length : Int

/-- `BucketCounter` from `core/blueprint_policy.py`. -/
structure BucketCounter where
  easy : Int
  medium : Int
  hard : Int

/-- `SkillCounter` from `core/blueprint_policy.py`. -/
structure SkillCounter where
  total : Int
  by_diff : BucketCounter

/-- `DomainCounter` from `core/blueprint_policy.py`. -/
structure DomainCounter where
  total : Int
  by_skill : List (String × SkillCounter)

/-- `BlueprintState` from `core/blueprint_policy.py`. -/
structure BlueprintState where
  spec : BlueprintSpec
  served : List (String × DomainCounter)

/-- `BlueprintState.total_served` from `core/blueprint_policy.py`. -/
def BlueprintState.total_served (st : BlueprintState) : Int :=
  (st.served.map (fun p => p.2.total)).sum

/-- `_safe_norm` from `core/blueprint_policy.py`: normalise a weight map to
sum 1; when the (clamped) sum is `≤ 0`, silently split evenly
(`n = len(weights) or 1`). -/
def safe_norm (weights : List (String × ℝ)) : List (String × ℝ) :=
  if (weights.map (fun p => max 0 p.2)).sum ≤ 0 then
    weights.map (fun p =>
      (p.1, 1 / (if weights.length = 0 then (1:ℝ) else (weights.length : ℝ))))
  else
    weights.map (fun p => (p.1, max 0 p.2 / (weights.map (fun q => max 0 q.2)).sum))

/-- `_clip_nonneg` from `core/blueprint_policy.py`: floor and clamp at 0. -/
def clip_nonneg (x : ℝ) : Int := max 0 ⌊x⌋

/-- Shape of the per-skill difficulty targets returned by
`_targets_for_domain`. -/
structure DiffTargets where
  easy : Int
  medium : Int
  hard : Int

/-- Shape of the per-skill slice of the `compute_all_targets` result. -/
structure SkillTargets where
  total : Int
  by_diff : DiffTargets

/-- Shape of the per-domain slice of the `compute_all_targets` result. -/
structure DomainTargets where
  total : Int
  by_skill : List (String × SkillTargets)

/-- `_targets_for_domain` from `core/blueprint_policy.py`, taking the
`DomainSpec` directly (the Python function indexes `spec.domains[name]`,
which always succeeds because the caller iterates the same dict's keys).
The lookups into the normalised weight maps always succeed because
`_safe_norm` preserves keys; `.getD 0` renders them total. -/
def targets_for_domain (L : Int) (dspec : DomainSpec) : DomainTargets :=
  let domain_target := clip_nonneg ((L : ℝ) * max 0 dspec.weight)
  let skill_weights := safe_norm (dspec.skills.map (fun p => (p.1, p.2.weight)))
  { total := domain_target,
    by_skill := dspec.skills.map (fun p =>
      let t := clip_nonneg ((domain_target : ℝ) *
        ((skill_weights.lookup p.1).getD 0))
      let mix := safe_norm [("easy", p.2.difficulty.easy),
        ("medium", p.2.difficulty.medium), ("hard", p.2.difficulty.hard)]
      (p.1,
       { total := t,
         by_diff :=
           { easy := clip_nonneg ((t : ℝ) * ((mix.lookup "easy").getD 0)),
             medium := clip_nonneg ((t : ℝ) * ((mix.lookup "medium").getD 0)),
             hard := clip_nonneg ((t : ℝ) * ((mix.lookup "hard").getD 0)) } })) }

/-- `compute_all_targets` from `core/blueprint_policy.py`.  Python iterates
the domain dict's keys and re-indexes `spec.domains[d]`; with unique keys that
is a map over the entries. -/
def compute_all_targets (spec : BlueprintSpec) : List (String × DomainTargets) :=
  spec.domains.map (fun p => (p.1, targets_for_domain spec.length p.2))

/-- `initialize_state` from `core/blueprint_policy.py` (shortened name):
zeroed counters mirroring the spec hierarchy. -/
def init_state (spec : BlueprintSpec) : BlueprintState :=
  { spec := spec,
    served := spec.domains.map (fun p =>
      (p.1,
       { total := 0,
         by_skill := p.2.skills.map (fun q =>
           (q.1, { total := 0, by_diff := ⟨0, 0, 0⟩ })) })) }

/-- `remaining_quota` from `core/blueprint_policy.py`: targets minus served,
floored at 0; domains/skills absent from the served tree are skipped
(`continue`). -/
def remaining_quota (state : BlueprintState) : List (String × DomainTargets) :=
  (compute_all_targets state.spec).filterMap (fun p =>
    match state.served.lookup p.1 with
    | none => none
    | some dc =>
      some (p.1,
        { total := max 0 (p.2.total - dc.total),
          by_skill := p.2.by_skill.filterMap (fun q =>
            match dc.by_skill.lookup q.1 with
            | none => none
            | some sc =>
              some (q.1,
                { total := max 0 (q.2.total - sc.total),
                  by_diff :=
                    { easy := max 0 (q.2.by_diff.easy - sc.by_diff.easy),
                      medium := max 0 (q.2.by_diff.medium - sc.by_diff.medium),
                      hard := max 0 (q.2.by_diff.hard - sc.by_diff.hard) } })) }))

/-- Model of Python's `by_diff.get(key, 0)` on the three-key difficulty
dict. -/
def DiffTargets.get (dt : DiffTargets) (k : String) : Int :=
  if k = "easy" then dt.easy
  else if k = "medium" then dt.medium
  else if k = "hard" then dt.hard
  else 0

/-- `blueprint_ok` from `core/blueprint_policy.py`. -/
def blueprint_ok (item_domain item_skill item_difficulty : String)
    (state : BlueprintState) : Bool :=
  match (remaining_quota state).lookup item_domain with
  | none => false
  | some d =>
    if d.total ≤ 0 then false
    else
      match d.by_skill.lookup item_skill with
      | none => false
      | some s =>
        if s.total ≤ 0 then false
        else if ¬(item_difficulty = "easy" ∨ item_difficulty = "medium" ∨
            item_difficulty = "hard") then false
        else if s.by_diff.get item_difficulty ≤ 0 then false
        else true

/-- Update of the unique entry of an association list with the given key
(Python mutates the record obtained by dict indexing; dict keys are unique,
so updating every matching entry coincides). -/
def alist_update {α : Type} (l : List (String × α)) (k : String) (f : α → α) :
    List (String × α) :=
  l.map (fun p => if p.1 = k then (p.1, f p.2) else p)

/-- `update_state_on_serve` from `core/blueprint_policy.py`.  The Python code
indexes `state.served[item_domain]` and `dc.by_skill[item_skill]` directly;
a missing key raises `KeyError`, modelled as `none`. -/
def update_state_on_serve (item_domain item_skill item_difficulty : String)
    (state : BlueprintState) : Option BlueprintState :=
  match state.served.lookup item_domain with
  | none => none
  | some dc =>
    match dc.by_skill.lookup item_skill with
    | none => none
    | some _ =>
      some { state with
        served := alist_update state.served item_domain (fun dc =>
          { total := dc.total + 1,
            by_skill := alist_update dc.by_skill item_skill (fun sc =>
              { total := sc.total + 1,
                by_diff :=
                  if item_difficulty = "easy" then
                    { sc.by_diff with easy := sc.by_diff.easy + 1 }
                  else if item_difficulty = "medium" then
                    { sc.by_diff with medium := sc.by_diff.medium + 1 }
                  else
                    { sc.by_diff with hard := sc.by_diff.hard + 1 } }) }) }

/-- `should_stop_by_blueprint` from `core/blueprint_policy.py`. -/
def should_stop_by_blueprint (state : BlueprintState) : Bool :=
  decide (state.total_served ≥ state.spec.length)

/-- Sum of the per-domain target totals of `compute_all_targets`. -/
def sum_domain_targets (spec : BlueprintSpec) : Int :=
  ((compute_all_targets spec).map (fun p => p.2.total)).sum

theorem sum_clip_aux (L : Int) (hL : 0 < L) (l : List (String × DomainSpec))
    (hw : ∀ p ∈ l, 0 ≤ p.2.weight) :
    (((l.map (fun p => clip_nonneg ((L : ℝ) * max 0 p.2.weight))).sum : ℤ) : ℝ) ≤
        (L : ℝ) * (l.map (fun p => p.2.weight)).sum ∧
      (L : ℝ) * (l.map (fun p => p.2.weight)).sum - l.length ≤
        (((l.map (fun p => clip_nonneg ((L : ℝ) * max 0 p.2.weight))).sum : ℤ) : ℝ) := by
  induction l with
  | nil => simp
  | cons x xs ih =>
    have ih' := ih (fun p hp => hw p (List.mem_cons_of_mem _ hp))
    have hwx : 0 ≤ x.2.weight := hw x (List.mem_cons_self _ _)
    have hmax : max 0 x.2.weight = x.2.weight := max_eq_right hwx
    have hLr : (0:ℝ) < (L : ℝ) := by exact_mod_cast hL
    have hnn : (0:ℝ) ≤ (L : ℝ) * max 0 x.2.weight :=
      mul_nonneg hLr.le (le_max_left 0 _)
    have hclip : clip_nonneg ((L : ℝ) * max 0 x.2.weight) =
        ⌊(L : ℝ) * max 0 x.2.weight⌋ :=
      max_eq_right (Int.floor_nonneg.mpr hnn)
    have hfl_le : ((⌊(L : ℝ) * max 0 x.2.weight⌋ : ℤ) : ℝ) ≤
        (L : ℝ) * max 0 x.2.weight := Int.floor_le _
    have hfl_gt : (L : ℝ) * max 0 x.2.weight - 1 <
        ((⌊(L : ℝ) * max 0 x.2.weight⌋ : ℤ) : ℝ) := Int.sub_one_lt_floor _
    rw [hmax] at hfl_le hfl_gt hclip
    simp only [List.map_cons, List.sum_cons, List.length_cons, hmax, hclip]
    rw [Int.cast_add, mul_add, Nat.cast_add, Nat.cast_one]
    constructor
    · have h1 := ih'.1
      linarith [hfl_le]
    · have h2 := ih'.2
      linarith [hfl_gt]

/-- C6: for a blueprint spec with nonnegative domain weights summing to 1 and
positive length `L`, the floor-rounded per-domain target totals sum to at
most `L` and to strictly more than `L` minus the number of domains
(`core/blueprint_policy.py`, `_targets_for_domain` / `compute_all_targets`). -/
theorem C6_blueprint_target_sum (spec : BlueprintSpec)
    (hw : ∀ p ∈ spec.domains, 0 ≤ p.2.weight)
    (hsum : (spec.domains.map (fun p => p.2.weight)).sum = 1)
    (hL : 0 < spec.length) :
    sum_domain_targets spec ≤ spec.length ∧
      spec.length - (spec.domains.length : Int) < sum_domain_targets spec := by
  have hST : sum_domain_targets spec =
      (spec.domains.map (fun p =>
        clip_nonneg ((spec.length : ℝ) * max 0 p.2.weight))).sum := by
    unfold sum_domain_targets compute_all_targets
    rw [List.map_map]
    rfl
  obtain ⟨x, xs, hcons⟩ : ∃ x xs, spec.domains = x :: xs := by
    cases hd : spec.domains with
    | nil => rw [hd] at hsum; simp at hsum
    | cons x xs => exact ⟨x, xs, rfl⟩
  have hw' : ∀ p ∈ spec.domains, 0 ≤ p.2.weight := hw
  rw [hcons] at hST hsum hw'
  have hwx : 0 ≤ x.2.weight := hw' x (List.mem_cons_self _ _)
  have hmax : max 0 x.2.weight = x.2.weight := max_eq_right hwx
  have hLr : (0:ℝ) < ((spec.length : ℤ) : ℝ) := by exact_mod_cast hL
  have hnn : (0:ℝ) ≤ (spec.length : ℝ) * max 0 x.2.weight :=
    mul_nonneg hLr.le (le_max_left 0 _)
  have hclip : clip_nonneg ((spec.length : ℝ) * max 0 x.2.weight) =
      ⌊(spec.length : ℝ) * max 0 x.2.weight⌋ :=
    max_eq_right (Int.floor_nonneg.mpr hnn)
  have hfl_le : ((⌊(spec.length : ℝ) * max 0 x.2.weight⌋ : ℤ) : ℝ) ≤
      (spec.length : ℝ) * max 0 x.2.weight := Int.floor_le _
  have hfl_gt : (spec.length : ℝ) * max 0 x.2.weight - 1 <
      ((⌊(spec.length : ℝ) * max 0 x.2.weight⌋ : ℤ) : ℝ) := Int.sub_one_lt_floor _
  rw [hmax] at hfl_le hfl_gt hclip
  have haux := sum_clip_aux spec.length hL xs
    (fun p hp => hw' p (List.mem_cons_of_mem _ hp))
  simp only [List.map_cons, List.sum_cons] at hST hsum
  have hLS : (spec.length : ℝ) * x.2.weight +
      (spec.length : ℝ) * (xs.map (fun p => p.2.weight)).sum = spec.length := by
    rw [← mul_add, hsum, mul_one]
  constructor
  · have hreal : ((sum_domain_targets spec : ℤ) : ℝ) ≤ (spec.length : ℝ) := by
      rw [hST, Int.cast_add]
      simp only [hmax, hclip]
      have h1 := haux.1
      linarith [hfl_le]
    exact_mod_cast hreal
  · have hreal : (spec.length : ℝ) - ((spec.domains.length : ℤ) : ℝ) <
        ((sum_domain_targets spec : ℤ) : ℝ) := by
      rw [hST, Int.cast_add, hcons]
      simp only [hmax, hclip, List.length_cons]
      rw [Int.natCast_add, Int.natCast_one, Int.cast_add, Int.cast_one,
        Int.cast_natCast]
      have h2 := haux.2
      linarith [hfl_gt]
    exact_mod_cast hreal

end BlueprintPolicy

/-- Concrete two-domain blueprint used to witness C6: weights `1/2` each,
length 4. -/
def c6Spec : BlueprintPolicy.BlueprintSpec :=
  ⟨[("Math", ⟨1/2, [("Algebra", ⟨1, ⟨1, 0, 0⟩⟩)]⟩),
    ("R&W", ⟨1/2, [("Grammar", ⟨1, ⟨1, 0, 0⟩⟩)]⟩)], 4⟩

/-- Witness for C6 at the concrete spec `c6Spec`. -/
theorem C6_blueprint_target_sum_witness :
    (∀ p ∈ c6Spec.domains, 0 ≤ p.2.weight) ∧
    (c6Spec.domains.map (fun p => p.2.weight)).sum = 1 ∧ 0 < c6Spec.length ∧
    (BlueprintPolicy.sum_domain_targets c6Spec ≤ c6Spec.length ∧
      c6Spec.length - (c6Spec.domains.length : Int) <
        BlueprintPolicy.sum_domain_targets c6Spec) := by
  have h1 : ∀ p ∈ c6Spec.domains, 0 ≤ p.2.weight := by
    intro p hp
    simp only [c6Spec, List.mem_cons, List.not_mem_nil, or_false] at hp
    rcases hp with rfl | rfl <;> norm_num
  have h2 : (c6Spec.domains.map (fun p => p.2.weight)).sum = 1 := by
    simp [c6Spec]
    norm_num
  have h3 : (0:Int) < c6Spec.length := by norm_num [c6Spec]
  exact ⟨h1, h2, h3, BlueprintPolicy.C6_blueprint_target_sum c6Spec h1 h2 h3⟩

/-- Domain table of an invalid blueprint configuration: weights sum to
`2 + 1/2 ≠ 1` and the second domain has zero skills. -/
def c7BadDomains : List (String × BlueprintPolicy.DomainSpec) :=
  [("Math", ⟨2, [("Algebra", ⟨1, ⟨1, 0, 0⟩⟩)]⟩), ("R&W", ⟨1/2, []⟩)]

/-- An invalid blueprint: bad weights, a zero-skill domain, and non-positive
length — constructed without any error. -/
def c7BadSpec : BlueprintPolicy.BlueprintSpec := ⟨c7BadDomains, 0⟩

/-- C7 counterexample: the invalid configuration `c7BadSpec` (weights summing
to `5/2`, length `0`, a domain with zero skills) is accepted verbatim by the
`BlueprintSpec` constructor — a plain frozen dataclass with no `__post_init__`
validation — and `compute_all_targets` silently computes a target tree for it
instead of failing.  There is no fail-fast construction-time error anywhere in
`core/blueprint_policy.py`. -/
theorem C7_counterexample :
    (c7BadSpec.domains.map (fun p => p.2.weight)).sum ≠ 1 ∧
    c7BadSpec.length ≤ 0 ∧
    (∃ p ∈ c7BadSpec.domains, p.2.skills = []) ∧
    c7BadSpec.domains = c7BadDomains ∧
    BlueprintPolicy.compute_all_targets c7BadSpec =
      [("Math", ⟨0, [("Algebra", ⟨0, ⟨0, 0, 0⟩⟩)]⟩), ("R&W", ⟨0, []⟩)] := by
  refine ⟨?_, ?_, ⟨("R&W", ⟨1/2, []⟩), ?_, rfl⟩, rfl, ?_⟩
  · simp [c7BadSpec, c7BadDomains]
    norm_num
  · norm_num [c7BadSpec]
  · simp [c7BadSpec, c7BadDomains]
  · simp [BlueprintPolicy.compute_all_targets, BlueprintPolicy.targets_for_domain,
      BlueprintPolicy.clip_nonneg, c7BadSpec, c7BadDomains]

/-- C7 amended: blueprint construction performs NO validation.  The
`BlueprintSpec` constructor stores any configuration verbatim; a weight map
whose clamped sum is `≤ 0` is silently replaced by an equal split inside
`_safe_norm`; and a non-positive test length silently yields all-zero domain
targets — invalid configurations flow through instead of failing fast. -/
theorem C7_amended_no_validation :
    (∀ (ds : List (String × BlueprintPolicy.DomainSpec)) (L : Int),
      (BlueprintPolicy.BlueprintSpec.mk ds L).domains = ds ∧
      (BlueprintPolicy.BlueprintSpec.mk ds L).length = L) ∧
    (∀ w : List (String × ℝ), (w.map (fun p => max 0 p.2)).sum ≤ 0 →
      BlueprintPolicy.safe_norm w = w.map (fun p =>
        (p.1, 1 / (if w.length = 0 then (1:ℝ) else (w.length : ℝ))))) ∧
    (∀ spec : BlueprintPolicy.BlueprintSpec, spec.length ≤ 0 →
      ∀ e ∈ BlueprintPolicy.compute_all_targets spec, e.2.total = 0) := by
  refine ⟨fun ds L => ⟨rfl, rfl⟩, fun w h => ?_, fun spec hL e he => ?_⟩
  · unfold BlueprintPolicy.safe_norm
    rw [if_pos h]
  · obtain ⟨p, hp, rfl⟩ := List.mem_map.mp he
    show BlueprintPolicy.clip_nonneg ((spec.length : ℝ) * max 0 p.2.weight) = 0
    unfold BlueprintPolicy.clip_nonneg
    have h1 : ((spec.length : ℤ) : ℝ) ≤ 0 := by exact_mod_cast hL
    have h2 : (0:ℝ) ≤ max 0 p.2.weight := le_max_left 0 _
    have hx : (spec.length : ℝ) * max 0 p.2.weight ≤ 0 := by nlinarith
    exact max_eq_left (Int.floor_nonpos hx)

/-- Witness for C7's amended claim: the all-negative weight map is replaced
by the equal split, and every domain target of the zero-length `c7BadSpec`
is 0. -/
theorem C7_amended_no_validation_witness :
    BlueprintPolicy.safe_norm [("A", (-1:ℝ))] = [("A", 1)] ∧
    c7BadSpec.length ≤ 0 ∧
    (∀ e ∈ BlueprintPolicy.compute_all_targets c7BadSpec, e.2.total = 0) := by
  refine ⟨?_, by norm_num [c7BadSpec],
    C7_amended_no_validation.2.2 c7BadSpec (by norm_num [c7BadSpec])⟩
  have h := C7_amended_no_validation.2.1 [("A", (-1:ℝ))] (by simp)
  rw [h]
  norm_num

/-- `ItemV2` from `core/schema.py`.  The content payload (stem, options,
answer key, stimulus, rationale, version, status) is opaque to the selection
core (spec section 3) and carried as-is. -/
structure ItemV2 where
  id : Nat
  domain : String
  skill : String
  difficulty_tag : String
  stem : String
  options : List (String × String)
  answer_key : String
  stimulus : Option String
  rationale : Option (List (String × String))
  version : Int
  status : String

/-- Item with the given taxonomy tags and empty content payload. -/
def mkItem (id : Nat) (domain skill diff : String) : ItemV2 :=
  ⟨id, domain, skill, diff, "", [], "A", none, none, 1, "active"⟩

namespace AdaptiveSelector

/-- The blueprint filter of the first selection pass of `select_next_item`
(`core/adaptive_selector.py`, lines 61-63): an item fails when a blueprint
state is present and `blueprint_ok` rejects its taxonomy tags. -/
def bpFails (bp_state : Option BlueprintPolicy.BlueprintState) (item : ItemV2) :
    Bool :=
  match bp_state with
  | some st =>
    ! BlueprintPolicy.blueprint_ok item.domain item.skill item.difficulty_tag st
  | none => false

/-- Body of the first selection loop of `select_next_item`
(`core/adaptive_selector.py`, lines 56-77): skip asked items, blueprint
rejects, missing parameters and over-exposed items; keep the item with the
strictly largest Fisher information. -/
def scanStep (theta : ℝ) (irt_params : Nat → Option IRTParams)
    (asked_ids : List Nat) (bp_state : Option BlueprintPolicy.BlueprintState)
    (exposure_limit : ℝ) (acc : Option ItemV2 × ℝ) (item : ItemV2) :
    Option ItemV2 × ℝ :=
  if item.id ∈ asked_ids then acc
  else if bpFails bp_state item then acc
  else
    match irt_params item.id with
    | none => acc
    | some pars =>
      if pars.exposure ≥ exposure_limit then acc
      else if IRTEngine.fisher_info theta pars > acc.2 then
        (some item, IRTEngine.fisher_info theta pars)
      else acc

/-- Body of the fallback loop of `select_next_item`
(`core/adaptive_selector.py`, lines 85-96): same scan without the blueprint
and exposure filters. -/
def fbStep (theta : ℝ) (irt_params : Nat → Option IRTParams)
    (asked_ids : List Nat) (acc : Option ItemV2 × ℝ) (item : ItemV2) :
    Option ItemV2 × ℝ :=
  if item.id ∈ asked_ids then acc
  else
    match irt_params item.id with
    | none => acc
    | some pars =>
      if IRTEngine.fisher_info theta pars > acc.2 then
        (some item, IRTEngine.fisher_info theta pars)
      else acc

/-- Both selection passes combined: the first pass starting from
`(None, -1.0)`, then — exactly when it found nothing and a blueprint state
was supplied — the fallback pass continuing from the first pass's
accumulator. -/
def pickBest (theta : ℝ) (items : List ItemV2)
    (irt_params : Nat → Option IRTParams) (asked_ids : List Nat)
    (bp_state : Option BlueprintPolicy.BlueprintState) (exposure_limit : ℝ) :
    Option ItemV2 × ℝ :=
  let r1 := items.foldl
    (scanStep theta irt_params asked_ids bp_state exposure_limit) (none, -1)
  if r1.1.isNone && bp_state.isSome then
    items.foldl (fbStep theta irt_params asked_ids) r1
  else r1

/-- The exposure bump applied to the chosen item's parameter record
(`core/adaptive_selector.py`, lines 109-111):
`pars.exposure = min(1.0, pars.exposure + 0.05)`, leaving every other entry
of the table untouched. -/
def bumpExposure (irt_params : Nat → Option IRTParams) (i : Nat) :
    Nat → Option IRTParams :=
  fun j =>
    if j = i then
      (irt_params j).map (fun p => { p with exposure := min 1 (p.exposure + 0.05) })
    else irt_params j

/-- The guard `bp_state and should_stop_by_blueprint(bp_state)` of
`core/adaptive_selector.py`, line 48. -/
def shouldStopOpt (bp_state : Option BlueprintPolicy.BlueprintState) : Bool :=
  match bp_state with
  | some st => BlueprintPolicy.should_stop_by_blueprint st
  | none => false

/-- `select_next_item` from `core/adaptive_selector.py`.  The mutations are
made explicit: the result carries the updated parameter table and blueprint
state; the `KeyError` that `update_state_on_serve` raises on a domain/skill
missing from the served tree is modelled as `.error ()`. -/
def select_next_item (theta : ℝ) (items : List ItemV2)
    (irt_params : Nat → Option IRTParams) (asked_ids : List Nat)
    (bp_state : Option BlueprintPolicy.BlueprintState) (exposure_limit : ℝ) :
    Except Unit (Option ItemV2 × (Nat → Option IRTParams) ×
      Option BlueprintPolicy.BlueprintState) :=
  if shouldStopOpt bp_state then
    .ok (none, irt_params, bp_state)
  else
    match (pickBest theta items irt_params asked_ids bp_state exposure_limit).1 with
    | none => .ok (none, irt_params, bp_state)
    | some best =>
      match bp_state with
      | none => .ok (some best, bumpExposure irt_params best.id, none)
      | some st =>
        match BlueprintPolicy.update_state_on_serve best.domain best.skill
            best.difficulty_tag st with
        | none => .error ()
        | some st2 => .ok (some best, bumpExposure irt_params best.id, some st2)

theorem scanStep_cases (theta : ℝ) (irt_params : Nat → Option IRTParams)
    (asked_ids : List Nat) (bp_state : Option BlueprintPolicy.BlueprintState)
    (exposure_limit : ℝ) (acc : Option ItemV2 × ℝ) (item : ItemV2) :
    scanStep theta irt_params asked_ids bp_state exposure_limit acc item = acc ∨
      ((scanStep theta irt_params asked_ids bp_state exposure_limit acc item).1 =
        some item ∧ item.id ∉ asked_ids) := by
  unfold scanStep
  by_cases ha : item.id ∈ asked_ids
  · rw [if_pos ha]; exact Or.inl rfl
  · rw [if_neg ha]
    by_cases hb : bpFails bp_state item = true
    · rw [if_pos hb]; exact Or.inl rfl
    · rw [if_neg hb]
      cases hq : irt_params item.id with
      | none => exact Or.inl rfl
      | some pars =>
        dsimp only
        by_cases hc : pars.exposure ≥ exposure_limit
        · rw [if_pos hc]; exact Or.inl rfl
        · rw [if_neg hc]
          by_cases hd : IRTEngine.fisher_info theta pars > acc.2
          · rw [if_pos hd]; exact Or.inr ⟨rfl, ha⟩
          · rw [if_neg hd]; exact Or.inl rfl

theorem fbStep_cases (theta : ℝ) (irt_params : Nat → Option IRTParams)
    (asked_ids : List Nat) (acc : Option ItemV2 × ℝ) (item : ItemV2) :
    fbStep theta irt_params asked_ids acc item = acc ∨
      ((fbStep theta irt_params asked_ids acc item).1 = some item ∧
        item.id ∉ asked_ids) := by
  unfold fbStep
  by_cases ha : item.id ∈ asked_ids
  · rw [if_pos ha]; exact Or.inl rfl
  · rw [if_neg ha]
    cases hq : irt_params item.id with
    | none => exact Or.inl rfl
    | some pars =>
      dsimp only
      by_cases hd : IRTEngine.fisher_info theta pars > acc.2
      · rw [if_pos hd]; exact Or.inr ⟨rfl, ha⟩
      · rw [if_neg hd]; exact Or.inl rfl

theorem foldl_mem_of_step {step : (Option ItemV2 × ℝ) → ItemV2 → Option ItemV2 × ℝ}
    {asked_ids : List Nat}
    (hstep : ∀ acc item, step acc item = acc ∨
      ((step acc item).1 = some item ∧ item.id ∉ asked_ids)) :
    ∀ (l : List ItemV2) (acc : Option ItemV2 × ℝ) (it : ItemV2),
      (List.foldl step acc l).1 = some it →
      acc.1 = some it ∨ (it ∈ l ∧ it.id ∉ asked_ids) := by
  intro l
  induction l with
  | nil => intro acc it h; exact Or.inl h
  | cons x xs ih =>
    intro acc it h
    rcases ih (step acc x) it h with h1 | h2
    · rcases hstep acc x with he | ⟨he, hna⟩
      · rw [he] at h1; exact Or.inl h1
      · rw [he] at h1
        have : x = it := Option.some.inj h1
        subst this
        exact Or.inr ⟨List.mem_cons_self _ _, hna⟩
    · exact Or.inr ⟨List.mem_cons_of_mem _ h2.1, h2.2⟩

theorem foldl_const_of_asked {step : (Option ItemV2 × ℝ) → ItemV2 → Option ItemV2 × ℝ}
    {asked_ids : List Nat} (l : List ItemV2)
    (hstep : ∀ acc item, item.id ∈ asked_ids → step acc item = acc)
    (hl : ∀ it ∈ l, it.id ∈ asked_ids) (acc : Option ItemV2 × ℝ) :
    List.foldl step acc l = acc := by
  induction l generalizing acc with
  | nil => rfl
  | cons x xs ih =>
    simp only [List.foldl]
    rw [hstep acc x (hl x (List.mem_cons_self _ _))]
    exact ih (fun it hit => hl it (List.mem_cons_of_mem _ hit)) acc

theorem pickBest_mem (theta : ℝ) (items : List ItemV2)
    (irt_params : Nat → Option IRTParams) (asked_ids : List Nat)
    (bp_state : Option BlueprintPolicy.BlueprintState) (exposure_limit : ℝ)
    (it : ItemV2)
    (h : (pickBest theta items irt_params asked_ids bp_state exposure_limit).1 =
      some it) : it ∈ items ∧ it.id ∉ asked_ids := by
  have hscan := foldl_mem_of_step
    (fun acc item => scanStep_cases theta irt_params asked_ids bp_state
      exposure_limit acc item) items
  have hfb := foldl_mem_of_step
    (fun acc item => fbStep_cases theta irt_params asked_ids acc item) items
  simp only [pickBest] at h
  by_cases hc : ((items.foldl
      (scanStep theta irt_params asked_ids bp_state exposure_limit)
      (none, -1)).1.isNone && bp_state.isSome) = true
  · rw [if_pos hc] at h
    rcases hfb _ it h with h1 | h2
    · rcases hscan _ it h1 with h3 | h4
      · exact absurd h3 (by simp)
      · exact h4
    · exact h2
  · rw [if_neg hc] at h
    rcases hscan _ it h with h3 | h4
    · exact absurd h3 (by simp)
    · exact h4

theorem pickBest_none_of_all_asked (theta : ℝ) (items : List ItemV2)
    (irt_params : Nat → Option IRTParams) (asked_ids : List Nat)
    (bp_state : Option BlueprintPolicy.BlueprintState) (exposure_limit : ℝ)
    (hall : ∀ it ∈ items, it.id ∈ asked_ids) :
    (pickBest theta items irt_params asked_ids bp_state exposure_limit).1 =
      none := by
  have h1 : items.foldl
      (scanStep theta irt_params asked_ids bp_state exposure_limit)
      ((none : Option ItemV2), (-1 : ℝ)) = (none, -1) :=
    foldl_const_of_asked items
      (fun acc item hm => by unfold scanStep; rw [if_pos hm]) hall _
  simp only [pickBest, h1]
  by_cases hb : (((none : Option ItemV2), (-1:ℝ)).1.isNone && bp_state.isSome) = true
  · rw [if_pos hb]
    rw [foldl_const_of_asked items
      (fun acc item hm => by unfold fbStep; rw [if_pos hm]) hall _]
  · rw [if_neg hb]

end AdaptiveSelector

/-- C4: whenever `select_next_item` (`core/adaptive_selector.py`) returns a
value, that value is either `None` or an item of the bank whose id is not in
`asked_ids`; and when every bank item's id is already in `asked_ids` the
function returns `None` (leaving the parameter table and blueprint state
untouched) rather than raising. -/
theorem C4_select_safety :
    (∀ (theta : ℝ) (items : List ItemV2) (irt_params : Nat → Option IRTParams)
      (asked_ids : List Nat) (bp_state : Option BlueprintPolicy.BlueprintState)
      (exposure_limit : ℝ) (v : Option ItemV2)
      (ps : Nat → Option IRTParams) (bs : Option BlueprintPolicy.BlueprintState),
      AdaptiveSelector.select_next_item theta items irt_params asked_ids
          bp_state exposure_limit = .ok (v, ps, bs) →
      v = none ∨ ∃ it, v = some it ∧ it ∈ items ∧ it.id ∉ asked_ids) ∧
    (∀ (theta : ℝ) (items : List ItemV2) (irt_params : Nat → Option IRTParams)
      (asked_ids : List Nat) (bp_state : Option BlueprintPolicy.BlueprintState)
      (exposure_limit : ℝ),
      (∀ it ∈ items, it.id ∈ asked_ids) →
      AdaptiveSelector.select_next_item theta items irt_params asked_ids
          bp_state exposure_limit = .ok (none, irt_params, bp_state)) := by
  constructor
  · intro theta items irt_params asked_ids bp_state exposure_limit v ps bs h
    unfold AdaptiveSelector.select_next_item at h
    by_cases hstop : AdaptiveSelector.shouldStopOpt bp_state = true
    · rw [if_pos hstop] at h
      simp only [Except.ok.injEq, Prod.mk.injEq] at h
      exact Or.inl h.1.symm
    · rw [if_neg hstop] at h
      cases hp : (AdaptiveSelector.pickBest theta items irt_params asked_ids
          bp_state exposure_limit).1 with
      | none =>
        rw [hp] at h
        simp only [Except.ok.injEq, Prod.mk.injEq] at h
        exact Or.inl h.1.symm
      | some best =>
        rw [hp] at h
        have hmem := AdaptiveSelector.pickBest_mem theta items irt_params
          asked_ids bp_state exposure_limit best hp
        cases bp_state with
        | none =>
          dsimp only at h
          simp only [Except.ok.injEq, Prod.mk.injEq] at h
          exact Or.inr ⟨best, h.1.symm, hmem⟩
        | some st =>
          dsimp only at h
          cases hs : BlueprintPolicy.update_state_on_serve best.domain
              best.skill best.difficulty_tag st with
          | none => rw [hs] at h; exact absurd h (by simp)
          | some st2 =>
            rw [hs] at h
            simp only [Except.ok.injEq, Prod.mk.injEq] at h
            exact Or.inr ⟨best, h.1.symm, hmem⟩
  · intro theta items irt_params asked_ids bp_state exposure_limit hall
    unfold AdaptiveSelector.select_next_item
    by_cases hstop : AdaptiveSelector.shouldStopOpt bp_state = true
    · rw [if_pos hstop]
    · rw [if_neg hstop]
      rw [AdaptiveSelector.pickBest_none_of_all_asked theta items irt_params
        asked_ids bp_state exposure_limit hall]

/-- Witness for C4: a one-item bank whose item was already asked yields
`None` without an error, even with a blueprint state supplied. -/
theorem C4_select_safety_witness :
    (∀ it ∈ [mkItem 1 "Math" "Algebra" "easy"], it.id ∈ [1]) ∧
    AdaptiveSelector.select_next_item 0 [mkItem 1 "Math" "Algebra" "easy"]
        c1ParamsEngine [1] none (3/10) = .ok (none, c1ParamsEngine, none) := by
  have hall : ∀ it ∈ [mkItem 1 "Math" "Algebra" "easy"], it.id ∈ [1] := by
    intro it hit
    simp only [List.mem_singleton] at hit
    subst hit
    simp [mkItem]
  exact ⟨hall, C4_select_safety.2 0 _ c1ParamsEngine [1] none (3/10) hall⟩

namespace AdaptiveSelector

theorem select_ps_eq (theta : ℝ) (items : List ItemV2)
    (irt_params : Nat → Option IRTParams) (asked_ids : List Nat)
    (bp_state : Option BlueprintPolicy.BlueprintState) (exposure_limit : ℝ)
    (it : ItemV2) (ps : Nat → Option IRTParams)
    (bs : Option BlueprintPolicy.BlueprintState)
    (h : select_next_item theta items irt_params asked_ids bp_state
      exposure_limit = .ok (some it, ps, bs)) :
    ps = bumpExposure irt_params it.id := by
  unfold select_next_item at h
  by_cases hstop : shouldStopOpt bp_state = true
  · rw [if_pos hstop] at h
    simp only [Except.ok.injEq, Prod.mk.injEq] at h
    exact absurd h.1 (by simp)
  · rw [if_neg hstop] at h
    cases hp : (pickBest theta items irt_params asked_ids bp_state
        exposure_limit).1 with
    | none =>
      rw [hp] at h
      simp only [Except.ok.injEq, Prod.mk.injEq] at h
      exact absurd h.1 (by simp)
    | some best =>
      rw [hp] at h
      cases bp_state with
      | none =>
        dsimp only at h
        simp only [Except.ok.injEq, Prod.mk.injEq] at h
        obtain ⟨h1, h2, _⟩ := h
        obtain rfl : best = it := Option.some.inj h1
        exact h2.symm
      | some st =>
        dsimp only at h
        cases hs : BlueprintPolicy.update_state_on_serve best.domain best.skill
            best.difficulty_tag st with
        | none => rw [hs] at h; exact absurd h (by simp)
        | some st2 =>
          rw [hs] at h
          simp only [Except.ok.injEq, Prod.mk.injEq] at h
          obtain ⟨h1, h2, _⟩ := h
          obtain rfl : best = it := Option.some.inj h1
          exact h2.symm

end AdaptiveSelector

/-- C9: whenever `select_next_item` (`core/adaptive_selector.py`) returns an
item, the returned parameter table equals the input table except at the
chosen item's id, whose `exposure` becomes `min(1, exposure + 0.05)` — the
other fields (`id, a, b, c, drift_flag`) and every other entry are unchanged,
and the new exposure stays in `[0,1]` whenever the old one was nonnegative. -/
theorem C9_exposure_update_and_frame (theta : ℝ) (items : List ItemV2)
    (irt_params : Nat → Option IRTParams) (asked_ids : List Nat)
    (bp_state : Option BlueprintPolicy.BlueprintState) (exposure_limit : ℝ)
    (it : ItemV2) (ps : Nat → Option IRTParams)
    (bs : Option BlueprintPolicy.BlueprintState)
    (h : AdaptiveSelector.select_next_item theta items irt_params asked_ids
      bp_state exposure_limit = .ok (some it, ps, bs)) :
    (∀ j, j ≠ it.id → ps j = irt_params j) ∧
    (∀ p, irt_params it.id = some p →
      ps it.id = some { p with exposure := min 1 (p.exposure + 0.05) }) ∧
    (∀ p, irt_params it.id = some p → 0 ≤ p.exposure →
      ∃ q, ps it.id = some q ∧ q.id = p.id ∧ q.a = p.a ∧ q.b = p.b ∧
        q.c = p.c ∧ q.drift_flag = p.drift_flag ∧
        0 ≤ q.exposure ∧ q.exposure ≤ 1) := by
  have hps := AdaptiveSelector.select_ps_eq theta items irt_params asked_ids
    bp_state exposure_limit it ps bs h
  subst hps
  refine ⟨fun j hj => ?_, fun p hp => ?_, fun p hp h0 => ?_⟩
  · unfold AdaptiveSelector.bumpExposure
    rw [if_neg hj]
  · unfold AdaptiveSelector.bumpExposure
    rw [if_pos rfl, hp]
    rfl
  · refine ⟨{ p with exposure := min 1 (p.exposure + 0.05) }, ?_, rfl, rfl, rfl,
      rfl, rfl, ?_, ?_⟩
    · unfold AdaptiveSelector.bumpExposure
      rw [if_pos rfl, hp]
      rfl
    · exact le_min (by norm_num) (by linarith)
    · exact min_le_left _ _

/-- The one-item bank and table of the C9 witness scenario. -/
def w9Item : ItemV2 := mkItem 1 "Math" "Algebra" "easy"

/-- Parameter table `{1: IRTParams(a=1, b=0, c=0.2, exposure=0)}` for the C9
witness scenario. -/
def w9Params : Nat → Option IRTParams :=
  fun j => if j = 1 then some ⟨1, 1, 0, 1/5, 0, false⟩ else none

theorem w9_scan_eval :
    List.foldl (AdaptiveSelector.scanStep 0 w9Params [] none (3/10))
        ((none : Option ItemV2), (-1 : ℝ)) [w9Item] =
      (some w9Item, IRTEngine.fisher_info 0 ⟨1, 1, 0, 1/5, 0, false⟩) := by
  have hfpos := IRTEngine.fisher_info_nonneg 0 ⟨1, 1, 0, 1/5, 0, false⟩
  simp only [List.foldl, AdaptiveSelector.scanStep, AdaptiveSelector.bpFails]
  rw [if_neg (by simp : ¬ w9Item.id ∈ ([] : List Nat))]
  rw [if_neg (by simp : ¬ (false = true))]
  rw [show w9Params w9Item.id = some ⟨1, 1, 0, 1/5, 0, false⟩ from rfl]
  dsimp only
  rw [if_neg (by norm_num : ¬ ((0:ℝ) ≥ 3/10))]
  rw [if_pos (by linarith :
    IRTEngine.fisher_info 0 ⟨1, 1, 0, 1/5, 0, false⟩ > -1)]

theorem w9_eval :
    AdaptiveSelector.select_next_item 0 [w9Item] w9Params [] none (3/10) =
      .ok (some w9Item, AdaptiveSelector.bumpExposure w9Params 1, none) := by
  have hpick : AdaptiveSelector.pickBest 0 [w9Item] w9Params [] none (3/10) =
      (some w9Item, IRTEngine.fisher_info 0 ⟨1, 1, 0, 1/5, 0, false⟩) := by
    simp only [AdaptiveSelector.pickBest, w9_scan_eval]
    simp
  unfold AdaptiveSelector.select_next_item
  rw [if_neg (by simp [AdaptiveSelector.shouldStopOpt] :
    ¬ AdaptiveSelector.shouldStopOpt none = true)]
  rw [hpick]
  rfl

/-- Witness for C9: in the concrete one-item scenario the call returns the
item, the other table entries are untouched, and the chosen item's exposure
lands in `[0,1]`. -/
theorem C9_exposure_update_and_frame_witness :
    AdaptiveSelector.select_next_item 0 [w9Item] w9Params [] none (3/10) =
      .ok (some w9Item, AdaptiveSelector.bumpExposure w9Params 1, none) ∧
    AdaptiveSelector.bumpExposure w9Params 1 2 = w9Params 2 ∧
    (∃ q, AdaptiveSelector.bumpExposure w9Params 1 1 = some q ∧
      0 ≤ q.exposure ∧ q.exposure ≤ 1) := by
  have h := C9_exposure_update_and_frame 0 [w9Item] w9Params [] none (3/10)
    w9Item (AdaptiveSelector.bumpExposure w9Params 1) none w9_eval
  refine ⟨w9_eval, ?_, ?_⟩
  · exact h.1 2 (by simp [w9Item, mkItem])
  · obtain ⟨q, hq, _, _, _, _, _, h0, h1⟩ :=
      h.2.2 ⟨1, 1, 0, 1/5, 0, false⟩ rfl (le_refl 0)
    exact ⟨q, hq, h0, h1⟩

/-- First of two items with identical IRT parameters (C8 scenario). -/
def c8Item1 : ItemV2 := mkItem 1 "Math" "Algebra" "easy"

/-- Second of two items with identical IRT parameters (C8 scenario). -/
def c8Item2 : ItemV2 := mkItem 2 "Math" "Algebra" "easy"

/-- Parameter table giving items 1 and 2 identical `(a,b,c,exposure)`. -/
def c8Params : Nat → Option IRTParams :=
  fun j =>
    if j = 1 then some ⟨1, 1, 0, 1/5, 0, false⟩
    else if j = 2 then some ⟨2, 1, 0, 1/5, 0, false⟩
    else none

theorem c8_step1 :
    AdaptiveSelector.scanStep 0 c8Params [] none (3/10)
        ((none : Option ItemV2), (-1 : ℝ)) c8Item1 =
      (some c8Item1, IRTEngine.fisher_info 0 ⟨1, 1, 0, 1/5, 0, false⟩) := by
  have hfpos := IRTEngine.fisher_info_nonneg 0
    (⟨1, 1, 0, 1/5, 0, false⟩ : IRTParams)
  unfold AdaptiveSelector.scanStep
  rw [if_neg (by simp : ¬ c8Item1.id ∈ ([] : List Nat))]
  rw [if_neg (by simp [AdaptiveSelector.bpFails] :
    ¬ AdaptiveSelector.bpFails none c8Item1 = true)]
  rw [show c8Params c8Item1.id = some ⟨1, 1, 0, 1/5, 0, false⟩ from rfl]
  dsimp only
  rw [if_neg (by norm_num : ¬ ((0:ℝ) ≥ 3/10))]
  rw [if_pos (by linarith :
    IRTEngine.fisher_info 0 ⟨1, 1, 0, 1/5, 0, false⟩ > -1)]

theorem c8_step2 :
    AdaptiveSelector.scanStep 0 c8Params [] none (3/10)
        (some c8Item1, IRTEngine.fisher_info 0 ⟨1, 1, 0, 1/5, 0, false⟩)
        c8Item2 =
      (some c8Item1, IRTEngine.fisher_info 0 ⟨1, 1, 0, 1/5, 0, false⟩) := by
  unfold AdaptiveSelector.scanStep
  rw [if_neg (by simp : ¬ c8Item2.id ∈ ([] : List Nat))]
  rw [if_neg (by simp [AdaptiveSelector.bpFails] :
    ¬ AdaptiveSelector.bpFails none c8Item2 = true)]
  rw [show c8Params c8Item2.id = some ⟨2, 1, 0, 1/5, 0, false⟩ from rfl]
  dsimp only
  rw [if_neg (by norm_num : ¬ ((0:ℝ) ≥ 3/10))]
  rw [if_neg (show ¬ (IRTEngine.fisher_info 0 ⟨2, 1, 0, 1/5, 0, false⟩ >
      IRTEngine.fisher_info 0 ⟨1, 1, 0, 1/5, 0, false⟩) from
    not_lt.mpr (le_of_eq (rfl :
      IRTEngine.fisher_info 0 ⟨2, 1, 0, 1/5, 0, false⟩ =
        IRTEngine.fisher_info 0 ⟨1, 1, 0, 1/5, 0, false⟩)))]

/-- C8 counterexample: `select_next_item` in `core/adaptive_selector.py` is a
deterministic function with NO randomization: on a two-item bank with
identical parameters (hence identical Fisher information, a tie in score) it
always returns the first item — the tie is broken by insertion order, not by
a random choice among top-k candidates, contradicting the claim for this
cited function. -/
theorem C8_counterexample :
    IRTEngine.fisher_info 0 ⟨2, 1, 0, 1/5, 0, false⟩ =
      IRTEngine.fisher_info 0 ⟨1, 1, 0, 1/5, 0, false⟩ ∧
    c8Item1 ≠ c8Item2 ∧
    AdaptiveSelector.select_next_item 0 [c8Item1, c8Item2] c8Params [] none
        (3/10) =
      .ok (some c8Item1, AdaptiveSelector.bumpExposure c8Params 1, none) := by
  refine ⟨rfl, by simp [c8Item1, c8Item2, mkItem], ?_⟩
  have hpick : AdaptiveSelector.pickBest 0 [c8Item1, c8Item2] c8Params []
      none (3/10) =
      (some c8Item1, IRTEngine.fisher_info 0 ⟨1, 1, 0, 1/5, 0, false⟩) := by
    simp only [AdaptiveSelector.pickBest, List.foldl, c8_step1, c8_step2]
    simp
  unfold AdaptiveSelector.select_next_item
  rw [if_neg (by simp [AdaptiveSelector.shouldStopOpt] :
    ¬ AdaptiveSelector.shouldStopOpt none = true)]
  rw [hpick]
  rfl

/-- One-domain blueprint (`Math`/`Algebra` only, length 5) for the C10
scenario. -/
def c10Spec : BlueprintPolicy.BlueprintSpec :=
  ⟨[("Math", ⟨1, [("Algebra", ⟨1, ⟨1, 0, 0⟩⟩)]⟩)], 5⟩

/-- An un-asked item whose domain `Science` is not a key of the blueprint's
served-counter tree. -/
def c10Item : ItemV2 := mkItem 7 "Science" "Physics" "easy"

/-- Parameter table for the C10 scenario. -/
def c10Params : Nat → Option IRTParams :=
  fun j => if j = 7 then some ⟨7, 1, 0, 1/5, 0, false⟩ else none

theorem c10_scan :
    AdaptiveSelector.scanStep 0 c10Params []
        (some (BlueprintPolicy.init_state c10Spec)) (3/10)
        ((none : Option ItemV2), (-1 : ℝ)) c10Item =
      ((none : Option ItemV2), (-1 : ℝ)) := by
  unfold AdaptiveSelector.scanStep
  rw [if_neg (by simp : ¬ c10Item.id ∈ ([] : List Nat))]
  rw [if_pos (by decide :
    AdaptiveSelector.bpFails (some (BlueprintPolicy.init_state c10Spec))
      c10Item = true)]

theorem c10_fb :
    AdaptiveSelector.fbStep 0 c10Params []
        ((none : Option ItemV2), (-1 : ℝ)) c10Item =
      (some c10Item, IRTEngine.fisher_info 0 ⟨7, 1, 0, 1/5, 0, false⟩) := by
  have hfpos := IRTEngine.fisher_info_nonneg 0
    (⟨7, 1, 0, 1/5, 0, false⟩ : IRTParams)
  unfold AdaptiveSelector.fbStep
  rw [if_neg (by simp : ¬ c10Item.id ∈ ([] : List Nat))]
  rw [show c10Params c10Item.id = some ⟨7, 1, 0, 1/5, 0, false⟩ from rfl]
  dsimp only
  rw [if_pos (by linarith :
    IRTEngine.fisher_info 0 ⟨7, 1, 0, 1/5, 0, false⟩ > -1)]

/-- C10: with a blueprint state whose served tree only knows domain `Math`,
the blueprint filter rejects the `Science` item, the fallback pass then picks
it anyway, and `update_state_on_serve` indexes `state.served["Science"]`
directly — a missing key — so `select_next_item` raises `KeyError`
(modelled as `.error ()`) instead of returning the item or `None`. -/
theorem C10_fallback_keyerror :
    BlueprintPolicy.blueprint_ok c10Item.domain c10Item.skill
        c10Item.difficulty_tag (BlueprintPolicy.init_state c10Spec) = false ∧
    (BlueprintPolicy.init_state c10Spec).served.lookup c10Item.domain = none ∧
    AdaptiveSelector.select_next_item 0 [c10Item] c10Params []
        (some (BlueprintPolicy.init_state c10Spec)) (3/10) = .error () := by
  refine ⟨by decide, by decide, ?_⟩
  have hpick : AdaptiveSelector.pickBest 0 [c10Item] c10Params []
      (some (BlueprintPolicy.init_state c10Spec)) (3/10) =
      (some c10Item, IRTEngine.fisher_info 0 ⟨7, 1, 0, 1/5, 0, false⟩) := by
    simp only [AdaptiveSelector.pickBest, List.foldl, c10_scan, c10_fb]
    simp
  unfold AdaptiveSelector.select_next_item
  rw [if_neg (by decide :
    ¬ AdaptiveSelector.shouldStopOpt
      (some (BlueprintPolicy.init_state c10Spec)) = true)]
  rw [hpick]
  rfl

namespace QuestionSelector

/-- An item dict from `sat_ai_core/question_selector.py`: only the keys the
selector reads (`item.get("id")`, `item.get("skill", "Unknown")`) are
carried. -/
structure QItem where
  id : String
  skill : String

/-- A history entry (`{"skill": …, "answered_correctly": …}`). -/
structure HistEntry where
  skill : String
  answered_correctly : Bool

/-- The per-skill wrong-answer count built in step 1 of `select_next_item`
(`skill_wrong`), read back with `.get(skill, 0)`. -/
def skill_wrong_count (history : List HistEntry) (s : String) : Nat :=
  (history.filter (fun h => h.skill == s && !h.answered_correctly)).length

/-- `history[-1]["skill"] if history else None` (the cooldown skill). -/
def last_skill (history : List HistEntry) : Option String :=
  history.getLast?.map (fun h => h.skill)

/-- `skill_weight` from `sat_ai_core/question_selector.py`: the wrong-count
boost, the focus-skill discount (skipped when `focus_skill` is `None` or the
empty string, both falsy in Python), and the last-skill cooldown. -/
def skill_weight (history : List HistEntry) (focus_skill : Option String)
    (gamma : ℝ) (s : String) : ℝ :=
  let base := 1 + gamma * (skill_wrong_count history s : ℝ)
  let base2 :=
    match focus_skill with
    | some f => if ¬ f = "" ∧ ¬ s = f then base * 0.5 else base
    | none => base
  match last_skill history with
  | some ls => if s = ls then base2 * 0.7 else base2
  | none => base2

/-- A scored candidate: the tuple `(final_score, item, info, diff_fit,
weight)` of the Python code, restricted to the two components the selection
reads (the sort key `x[0]` and `chosen[1]`). -/
structure Cand where
  score : ℝ
  item : QItem

/-- Step 3 of `select_next_item`: the filtered, scored candidate list.
Skips empty/asked ids, missing parameters, items outside
`difficulty_range`, and non-positive information; scores the rest with
`info^alpha * diff_fit^beta * weight`. -/
def candidate_list (theta : ℝ) (asked_ids : List String) (items : List QItem)
    (irt_params : String → Option IRTCore.PubIRT) (history : List HistEntry)
    (focus_skill : Option String) (alpha beta gamma difficulty_range : ℝ) :
    List Cand :=
  items.filterMap (fun item =>
    if item.id = "" ∨ item.id ∈ asked_ids then none
    else
      match irt_params item.id with
      | none => none
      | some pars =>
        if |theta - pars.b| > difficulty_range then none
        else if IRTCore.fisher_info theta pars.a pars.b pars.c ≤ 0 then none
        else
          some ⟨IRTCore.fisher_info theta pars.a pars.b pars.c ^ alpha *
              (1 / (1 + |theta - pars.b|)) ^ beta *
              skill_weight history focus_skill gamma item.skill,
            item⟩)

/-- Stable insertion of a candidate into a descending-sorted list: the new
element goes after every earlier element of greater-or-equal score. -/
def insertDesc (x : Cand) : List Cand → List Cand
  | [] => [x]
  | y :: ys => if x.score ≤ y.score then y :: insertDesc x ys else x :: y :: ys

/-- Model of `candidates.sort(key=lambda x: x[0], reverse=True)` — Python's
sort is stable, so candidates of equal score keep their bank order. -/
def sortDesc (l : List Cand) : List Cand :=
  l.foldl (fun acc x => insertDesc x acc) []

/-- `select_next_item` from `sat_ai_core/question_selector.py`.  The uniform
draw `random.choice(top_candidates)` is modelled by the oracle index
`choice`, reduced modulo the size of the top-k list: every index denotes one
possible outcome of the random draw. -/
def select_next_item (theta : ℝ) (asked_ids : List String)
    (items : List QItem) (irt_params : String → Option IRTCore.PubIRT)
    (history : List HistEntry) (focus_skill : Option String) (top_k : Nat)
    (alpha beta gamma difficulty_range : ℝ) (choice : Nat) : Option QItem :=
  let cands := candidate_list theta asked_ids items irt_params history
    focus_skill alpha beta gamma difficulty_range
  if cands.isEmpty then none
  else
    let top := (sortDesc cands).take top_k
    (top[choice % top.length]?).map (fun c => c.item)

end QuestionSelector

/-- First of the two tied items of the C8 amended scenario. -/
def q8Item1 : QuestionSelector.QItem := ⟨"1", "Algebra"⟩

/-- Second of the two tied items of the C8 amended scenario. -/
def q8Item2 : QuestionSelector.QItem := ⟨"2", "Algebra"⟩

/-- Parameter table giving both items identical `(a,b,c) = (1, 0, 0.2)`. -/
def q8Params : String → Option IRTCore.PubIRT :=
  fun s =>
    if s = "1" then some ⟨1, 0, 1/5⟩
    else if s = "2" then some ⟨1, 0, 1/5⟩
    else none

theorem q8_prob_eq : IRTCore.prob_correct 0 1 0 (1/5) = 3/5 := by
  show IRTEngine.prob_correct 0 1 0 (1/5) = 3/5
  rw [IRTEngine.prob_correct_at_b 1 0 (1/5)]
  norm_num

theorem q8_fisher_pos : 0 < IRTCore.fisher_info 0 1 0 (1/5) := by
  have hdp : 0 < IRTCore.dprob_dtheta 0 1 0 (1/5) :=
    IRTEngine.dprob_pos (by norm_num) (by norm_num)
  unfold IRTCore.fisher_info
  rw [if_neg (by push_neg; norm_num)]
  rw [if_neg (not_not_intro
    ⟨by rw [q8_prob_eq]; norm_num, by rw [q8_prob_eq]; norm_num⟩)]
  apply div_pos (mul_pos hdp hdp)
  rw [q8_prob_eq]
  norm_num

/-- The (identical) score both tied candidates receive under the default
tuning `alpha = 1, beta = 0.8, gamma = 1.2, difficulty_range = 2`. -/
def q8Score : ℝ :=
  IRTCore.fisher_info 0 1 0 (1/5) ^ (1:ℝ) * (1 / (1 + |(0:ℝ) - 0|)) ^ ((4:ℝ)/5) *
    QuestionSelector.skill_weight [] none (6/5) "Algebra"

theorem q8_cands :
    QuestionSelector.candidate_list 0 [] [q8Item1, q8Item2] q8Params [] none
        1 (4/5) (6/5) 2 =
      [⟨q8Score, q8Item1⟩, ⟨q8Score, q8Item2⟩] := by
  unfold QuestionSelector.candidate_list
  simp only [List.filterMap_cons, List.filterMap_nil, q8Item1, q8Item2]
  rw [if_neg (by simp : ¬(("1":String) = "" ∨ ("1":String) ∈ ([] : List String)))]
  rw [if_neg (by simp : ¬(("2":String) = "" ∨ ("2":String) ∈ ([] : List String)))]
  rw [show q8Params "1" = some ⟨1, 0, 1/5⟩ from rfl]
  rw [show q8Params "2" = some ⟨1, 0, 1/5⟩ from rfl]
  dsimp only
  rw [if_neg (by norm_num : ¬ (|(0:ℝ) - 0| > 2))]
  rw [if_neg (not_le.mpr q8_fisher_pos)]
  rw [if_neg (by norm_num : ¬ (|(0:ℝ) - 0| > 2))]
  rw [if_neg (not_le.mpr q8_fisher_pos)]
  rfl

theorem q8_sort :
    QuestionSelector.sortDesc [⟨q8Score, q8Item1⟩, ⟨q8Score, q8Item2⟩] =
      [⟨q8Score, q8Item1⟩, ⟨q8Score, q8Item2⟩] := by
  unfold QuestionSelector.sortDesc
  simp only [List.foldl, QuestionSelector.insertDesc]
  rw [if_pos (le_refl q8Score)]

/-- C8 amended: the randomized top-k tie-break the claim describes lives in
`sat_ai_core/question_selector.py`, not in `core/adaptive_selector.py`.
There, with two candidates of identical score, different draws of the
uniform `random.choice` oracle return different items — the result is not a
function of the arguments alone.  (`core/adaptive_selector.py`'s selector is
deterministic and breaks ties by bank order, per `C8_counterexample`.) -/
theorem C8_amended_top_k_random_choice :
    QuestionSelector.select_next_item 0 [] [q8Item1, q8Item2] q8Params [] none
        4 1 (4/5) (6/5) 2 0 = some q8Item1 ∧
    QuestionSelector.select_next_item 0 [] [q8Item1, q8Item2] q8Params [] none
        4 1 (4/5) (6/5) 2 1 = some q8Item2 ∧
    q8Item1 ≠ q8Item2 := by
  refine ⟨?_, ?_, by simp [q8Item1, q8Item2]⟩
  · unfold QuestionSelector.select_next_item
    simp only [q8_cands]
    rw [if_neg (by simp :
      ¬ (([⟨q8Score, q8Item1⟩, ⟨q8Score, q8Item2⟩] :
        List QuestionSelector.Cand).isEmpty = true))]
    rw [q8_sort]
    rfl
  · unfold QuestionSelector.select_next_item
    simp only [q8_cands]
    rw [if_neg (by simp :
      ¬ (([⟨q8Score, q8Item1⟩, ⟨q8Score, q8Item2⟩] :
        List QuestionSelector.Cand).isEmpty = true))]
    rw [q8_sort]
    rfl

end
